import Mathlib

/-!
# GraphicsDemo: light manager and deferred-shading light accumulation

A shallow embedding of

* `src/demo/framework-dx11/lightManager.cpp` (namespace `dx11`),
* `src/demo/framework-gl/lightManager.cpp` (namespace `gl`),
* `src/data/shaders/dx11/deferredshading/pscommon.h` (namespace `pscommon`),

followed by the theorems about them.

Scalars.  The C++ `float` and the HLSL `float` are embedded as an arbitrary
linearly ordered field `F`: every definition is a computable function for every such
`F` (it runs over `ℚ`), and the theorems that hold for every `F` hold in particular over
the reals.  The first embedding of the shader computes without rounding; the second one
(`lightPowerR`, `blinnR`) rounds the result of every arithmetic operation with a rounding
function `rnd`, for which `binary32Round` is the binary32 instance.  Statements about
exact values of sums and quotients are made on the second embedding.  Functions that are
not field operations (`sqrt`, `pow`, `n_cos`, `n_sin`) and declarations that live outside
`src/` are parameters of the definitions that use them.
-/

/-! ## Data model shared by the two C++ variants -/

/-- The `vector3` of the math library (and the `float3` of HLSL): three scalars. -/
structure vector3 (F : Type) where
  x : F
  y : F
  z : F
deriving DecidableEq, Repr

/-- Modelled from the spec: the `LightType` enumeration of `lightManager.h`, which is not
under `src/`.  The spec gives the variant {Omni, Spot, Direct}; the constructor names are
the ones `lightManager.cpp` uses. -/
inductive LightType where
  | OmniLight
  | SpotLight
  | DirectLight
deriving DecidableEq, Repr

/-- Modelled from the spec: the integer tag that `(unsigned int)type` yields.  The shader
that consumes the record reads 0 as omni, 1 as spot and everything else as direct
(`pscommon.h`, lines 36, 43, 50). -/
def LightType.toUInt : LightType → ℕ
  | .OmniLight => 0
  | .SpotLight => 1
  | .DirectLight => 2

/-- The `LightSource` of `lightManager.h` (not under `src/`), with the fields that
`lightManager.cpp` reads.  `Q` is the type of `orientation`. -/
structure LightSource (F Q : Type) where
  type : LightType
  position : vector3 F
  orientation : Q
  diffuseColor : vector3 F
  specularColor : vector3 F
  ambientColor : vector3 F
  falloff : F
  angle : F

/-- The `LightRawData` record that `getRawLightData` fills.  The two padding words of the
GPU layout are never written by `getRawLightData` and are left out. -/
structure LightRawData (F : Type) where
  position : vector3 F
  lightType : ℕ
  direction : vector3 F
  falloff : F
  diffuseColor : vector3 F
  angle : F
  ambientColor : vector3 F
  specularColor : vector3 F
deriving DecidableEq, Repr

/-- The `Line3D` debug geometry: the point array handed to `initWithArray`
(empty for a freshly constructed `Line3D`). -/
structure Line3D (F : Type) where
  points : List (vector3 F)
deriving DecidableEq, Repr

/-- The `LightManager::LightData` entry: a light source and its debug geometry. -/
structure LightData (F Q : Type) where
  lightSource : LightSource F Q
  lineDebugVis : Line3D F

/-- The trigonometric part of the math library used by the debug-geometry builders
(`N_PI`, `n_cos`, `n_sin`; not under `src/`). -/
structure Trig (F : Type) where
  N_PI : F
  n_cos : F → F
  n_sin : F → F

/-- The `matrix44` operations used by `renderDebugVisualization` (math library, not under
`src/`): the default constructor, the constructor from an orientation, `set_translation`
and `operator*`.  `M` is the matrix type. -/
structure MatrixOps (F Q M : Type) where
  matrix44 : M
  ofOrientation : Q → M
  set_translation : M → vector3 F → M
  mul : M → M → M

/-! ## `framework-dx11/lightManager.cpp` -/

namespace dx11

/-- The `ArrowRendererData` constant-buffer record filled in `renderDebugVisualization`. -/
structure ArrowRendererData (F Q M : Type) where
  modelViewProjection : M
  orientation : Q
  position : vector3 F
  /-- the `vector3` handed to the `vector4` constructor -/
  color : vector3 F

/-- The `UniformBuffer` behind `m_arrowDataBuffer`: the data last stored with `setData`. -/
structure UniformBuffer (F Q M : Type) where
  data : Option (ArrowRendererData F Q M)

/-- The draws that `renderDebugVisualization` (dx11) emits.
`renderWithStandardGpuProgram line mvp color` is the call of that name on the light's
`Line3D`; `drawPointList count start data` is `Draw(count, start)` with the point-list
topology and the arrow constant buffer holding `data`. -/
inductive DrawCommand (F Q M : Type) where
  | renderWithStandardGpuProgram (line : Line3D F) (mvp : M) (color : vector3 F)
  | drawPointList (vertexCount : ℕ) (startVertex : ℕ) (data : ArrowRendererData F Q M)

/-- The state of the dx11 `LightManager`: the light vector and the arrow constant buffer
(`none` is the null pointer). -/
structure LightManager (F Q M : Type) where
  m_lightSources : List (LightData F Q)
  m_arrowDataBuffer : Option (UniformBuffer F Q M)

namespace LightManager

variable {F Q M : Type}

/-- Modelled from the spec: `getLightSource(index)` of `lightManager.h` (not under `src/`),
the light source of the entry at `index`; it is only called with `index` in range. -/
def getLightSource (m : LightManager F Q M) (index : ℕ)
    (h : index < m.m_lightSources.length) : LightSource F Q :=
  (m.m_lightSources.get ⟨index, h⟩).lightSource

/-- `LightManager::getRawLightData` (dx11), lines 157-186.  `n_deg2rad` and
`z_direction` belong to the math library and are parameters. -/
def getRawLightData [LinearOrderedField F] (n_deg2rad : F → F) (z_direction : Q → vector3 F)
    (m : LightManager F Q M) (index : ℕ) : LightRawData F :=
  if h : index ≥ m.m_lightSources.length then
    { position := ⟨0, 0, 0⟩
      direction := ⟨0, 0, 1⟩
      lightType := LightType.OmniLight.toUInt
      diffuseColor := ⟨1, 1, 1⟩
      falloff := 1000.0
      ambientColor := ⟨0.3, 0.3, 0.3⟩
      angle := n_deg2rad 60.0
      specularColor := ⟨1, 1, 1⟩ }
  else
    let source := getLightSource m index (Nat.lt_of_not_ge h)
    let dir := z_direction source.orientation
    { position := source.position
      direction := dir
      lightType := source.type.toUInt
      diffuseColor := source.diffuseColor
      falloff := source.falloff
      ambientColor := source.ambientColor
      angle := n_deg2rad source.angle
      specularColor := source.specularColor }

/-- `LightManager::init` (dx11), lines 30-37.  `initDefaultConstant` is the result of
`m_arrowDataBuffer->initDefaultConstant<ArrowRendererData>()`. -/
def init (initDefaultConstant : Bool) (m : LightManager F Q M) : LightManager F Q M :=
  let m := { m with m_arrowDataBuffer := some ⟨none⟩ }
  if !initDefaultConstant then
    { m with m_arrowDataBuffer := none }
  else
    m

/-- `LightManager::createDirectLightDebugVisualization` (dx11), lines 100-110. -/
def createDirectLightDebugVisualization [LinearOrderedField F] (_line : Line3D F) : Line3D F :=
  let points : List (vector3 F) := []
  let points := points ++ [⟨-3, 3, 0⟩]
  let points := points ++ [⟨3, 3, 0⟩]
  let points := points ++ [⟨3, -3, 0⟩]
  let points := points ++ [⟨-3, -3, 0⟩]
  let points := points ++ [⟨-3, 3, 0⟩]
  ⟨points⟩

/-- `LightManager::createOmniLightDebugVisualization` (dx11), lines 112-141. -/
def createOmniLightDebugVisualization [LinearOrderedField F] (T : Trig F) (_line : Line3D F) :
    Line3D F :=
  let points : List (vector3 F) := []
  let points := (List.range 13).foldl (fun points (i : ℕ) =>
    let x := T.n_cos (2.0 * T.N_PI * (i : F) / 12.0)
    let y := T.n_sin (2.0 * T.N_PI * (i : F) / 12.0)
    points ++ [⟨x, y, 0⟩]) points
  let points := (List.range 13).foldl (fun points (i : ℕ) =>
    let x := T.n_cos (2.0 * T.N_PI * (i : F) / 12.0)
    let z := T.n_sin (2.0 * T.N_PI * (i : F) / 12.0)
    points ++ [⟨x, 0, z⟩]) points
  let points := (List.range 4).foldl (fun points (i : ℕ) =>
    let x := T.n_cos (2.0 * T.N_PI * (i : F) / 12.0)
    let z := T.n_sin (2.0 * T.N_PI * (i : F) / 12.0)
    points ++ [⟨x, 0, z⟩]) points
  let points := (List.range 13).foldl (fun points (i : ℕ) =>
    let z := T.n_cos (2.0 * T.N_PI * (i : F) / 12.0)
    let y := T.n_sin (2.0 * T.N_PI * (i : F) / 12.0)
    points ++ [⟨0, y, z⟩]) points
  ⟨points⟩

/-- `LightManager::createSpotLightDebugVisualization` (dx11), lines 143-155.  The closing
point reads `points[0]`, which exists after the loop; the empty case cannot occur. -/
def createSpotLightDebugVisualization [LinearOrderedField F] (T : Trig F) (_line : Line3D F) :
    Line3D F :=
  let points : List (vector3 F) := []
  let points := (List.range 12).foldl (fun points (i : ℕ) =>
    let x := T.n_cos (2.0 * T.N_PI * (i : F) / 12.0)
    let y := T.n_sin (2.0 * T.N_PI * (i : F) / 12.0)
    points ++ [⟨x, y, 0⟩]) points
  let points :=
    match points with
    | p0 :: _ => points ++ [⟨p0.x, p0.y, 0⟩]
    | [] => points
  ⟨points⟩

/-- `LightManager::addLightSource` (dx11), lines 39-57. -/
def addLightSource [LinearOrderedField F] (T : Trig F) (m : LightManager F Q M)
    (lightSource : LightSource F Q) : LightManager F Q M :=
  let lineDebugVis : Line3D F := ⟨[]⟩
  let lineDebugVis :=
    if lightSource.type = LightType.DirectLight then
      createDirectLightDebugVisualization lineDebugVis
    else if lightSource.type = LightType.OmniLight then
      createOmniLightDebugVisualization T lineDebugVis
    else if lightSource.type = LightType.SpotLight then
      createSpotLightDebugVisualization T lineDebugVis
    else
      lineDebugVis
  { m with m_lightSources := m.m_lightSources ++ [⟨lightSource, lineDebugVis⟩] }

/-- One iteration of the loop of `renderDebugVisualization` (dx11), lines 63-97: the loop
test `i < m_lightSources.size()` and the body.  The state is the manager and the draws
emitted so far. -/
def renderDebugVisualizationStep (ops : MatrixOps F Q M) (use : ℕ → Bool) (viewProjection : M)
    (st : LightManager F Q M × List (DrawCommand F Q M)) (i : ℕ) :
    LightManager F Q M × List (DrawCommand F Q M) :=
  if h : i < st.1.m_lightSources.length then
    let l := st.1.m_lightSources.get ⟨i, h⟩
    if l.lightSource.type = LightType.OmniLight then
      let model := ops.matrix44
      let model := ops.set_translation model l.lightSource.position
      (st.1, st.2 ++ [DrawCommand.renderWithStandardGpuProgram l.lineDebugVis
        (ops.mul model viewProjection) l.lightSource.diffuseColor])
    else
      let model := ops.ofOrientation l.lightSource.orientation
      let model := ops.set_translation model l.lightSource.position
      let draws := st.2 ++ [DrawCommand.renderWithStandardGpuProgram l.lineDebugVis
        (ops.mul model viewProjection) l.lightSource.diffuseColor]
      match st.1.m_arrowDataBuffer with
      | some _ =>
        if use i then
          let data : ArrowRendererData F Q M :=
            { modelViewProjection := viewProjection
              orientation := l.lightSource.orientation
              position := l.lightSource.position
              color := l.lightSource.diffuseColor }
          ({ st.1 with m_arrowDataBuffer := some ⟨some data⟩ },
            draws ++ [DrawCommand.drawPointList 1 0 data])
        else
          (st.1, draws)
      | none => (st.1, draws)
  else
    st

/-- `LightManager::renderDebugVisualization` (dx11), lines 59-98.  `use i` is what
`program->use()` returns when it is called for the light at index `i` (it is called at most
once per light).  The result is the manager after the call and the draws in emission
order. -/
def renderDebugVisualization (ops : MatrixOps F Q M) (use : ℕ → Bool) (viewProjection : M)
    (m : LightManager F Q M) : LightManager F Q M × List (DrawCommand F Q M) :=
  (List.range m.m_lightSources.length).foldl
    (renderDebugVisualizationStep ops use viewProjection) (m, [])

end LightManager
end dx11

/-! ## `framework-gl/lightManager.cpp` -/

namespace gl

/-- The draws that `renderDebugVisualization` (gl) emits.
`renderWithStandardGpuProgram line mvp color flag` is the call of that name on the light's
`Line3D`; `drawArraysPoints first count orientation position mvp color` is
`glDrawArrays(GL_POINTS, first, count)` with the arrow program's four uniforms set to the
given values (`color` is the `vector3` handed to the `vector4` constructor). -/
inductive DrawCommand (F Q M : Type) where
  | renderWithStandardGpuProgram (line : Line3D F) (mvp : M) (color : vector3 F) (flag : Bool)
  | drawArraysPoints (first : ℕ) (count : ℕ) (orientation : Q) (position : vector3 F)
      (modelViewProjection : M) (color : vector3 F)

/-- The state of the gl `LightManager`: the light vector. -/
structure LightManager (F Q : Type) where
  m_lightSources : List (LightData F Q)

namespace LightManager

variable {F Q : Type}

/-- Modelled from the spec: `getLightSource(index)` of `lightManager.h` (not under `src/`),
the light source of the entry at `index`; it is only called with `index` in range. -/
def getLightSource (m : LightManager F Q) (index : ℕ)
    (h : index < m.m_lightSources.length) : LightSource F Q :=
  (m.m_lightSources.get ⟨index, h⟩).lightSource

/-- `LightManager::getRawLightData` (gl), lines 135-164. -/
def getRawLightData [LinearOrderedField F] (z_direction : Q → vector3 F)
    (m : LightManager F Q) (index : ℕ) : LightRawData F :=
  if h : index ≥ m.m_lightSources.length then
    { position := ⟨0, 0, 0⟩
      direction := ⟨0, 0, 0⟩
      lightType := LightType.OmniLight.toUInt
      diffuseColor := ⟨1, 1, 1⟩
      falloff := 1000.0
      ambientColor := ⟨0.3, 0.3, 0.3⟩
      angle := 60.0
      specularColor := ⟨1, 1, 1⟩ }
  else
    let source := getLightSource m index (Nat.lt_of_not_ge h)
    let dir := z_direction source.orientation
    { position := source.position
      direction := dir
      lightType := source.type.toUInt
      diffuseColor := source.diffuseColor
      falloff := source.falloff
      ambientColor := source.ambientColor
      angle := source.angle
      specularColor := source.specularColor }

/-- `LightManager::createDirectLightDebugVisualization` (gl), lines 80-89. -/
def createDirectLightDebugVisualization [LinearOrderedField F] (_line : Line3D F) : Line3D F :=
  let points : List (vector3 F) := []
  let points := points ++ [⟨-3, 3, 0⟩]
  let points := points ++ [⟨3, 3, 0⟩]
  let points := points ++ [⟨3, -3, 0⟩]
  let points := points ++ [⟨-3, -3, 0⟩]
  ⟨points⟩

/-- `LightManager::createOmniLightDebugVisualization` (gl), lines 91-120. -/
def createOmniLightDebugVisualization [LinearOrderedField F] (T : Trig F) (_line : Line3D F) :
    Line3D F :=
  let points : List (vector3 F) := []
  let points := (List.range 13).foldl (fun points (i : ℕ) =>
    let x := T.n_cos (2.0 * T.N_PI * (i : F) / 12.0)
    let y := T.n_sin (2.0 * T.N_PI * (i : F) / 12.0)
    points ++ [⟨x, y, 0⟩]) points
  let points := (List.range 13).foldl (fun points (i : ℕ) =>
    let x := T.n_cos (2.0 * T.N_PI * (i : F) / 12.0)
    let z := T.n_sin (2.0 * T.N_PI * (i : F) / 12.0)
    points ++ [⟨x, 0, z⟩]) points
  let points := (List.range 4).foldl (fun points (i : ℕ) =>
    let x := T.n_cos (2.0 * T.N_PI * (i : F) / 12.0)
    let z := T.n_sin (2.0 * T.N_PI * (i : F) / 12.0)
    points ++ [⟨x, 0, z⟩]) points
  let points := (List.range 13).foldl (fun points (i : ℕ) =>
    let z := T.n_cos (2.0 * T.N_PI * (i : F) / 12.0)
    let y := T.n_sin (2.0 * T.N_PI * (i : F) / 12.0)
    points ++ [⟨0, y, z⟩]) points
  ⟨points⟩

/-- `LightManager::createSpotLightDebugVisualization` (gl), lines 122-133. -/
def createSpotLightDebugVisualization [LinearOrderedField F] (T : Trig F) (_line : Line3D F) :
    Line3D F :=
  let points : List (vector3 F) := []
  let points := (List.range 12).foldl (fun points (i : ℕ) =>
    let x := T.n_cos (2.0 * T.N_PI * (i : F) / 12.0)
    let y := T.n_sin (2.0 * T.N_PI * (i : F) / 12.0)
    points ++ [⟨x, y, 0⟩]) points
  ⟨points⟩

/-- `LightManager::addLightSource` (gl), lines 30-48. -/
def addLightSource [LinearOrderedField F] (T : Trig F) (m : LightManager F Q)
    (lightSource : LightSource F Q) : LightManager F Q :=
  let lineDebugVis : Line3D F := ⟨[]⟩
  let lineDebugVis :=
    if lightSource.type = LightType.DirectLight then
      createDirectLightDebugVisualization lineDebugVis
    else if lightSource.type = LightType.OmniLight then
      createOmniLightDebugVisualization T lineDebugVis
    else if lightSource.type = LightType.SpotLight then
      createSpotLightDebugVisualization T lineDebugVis
    else
      lineDebugVis
  { m with m_lightSources := m.m_lightSources ++ [⟨lightSource, lineDebugVis⟩] }

/-- One iteration of the loop of `renderDebugVisualization` (gl), lines 52-77: the loop
test `i < m_lightSources.size()` and the body.  The state is the manager and the draws
emitted so far. -/
def renderDebugVisualizationStep {M : Type} (ops : MatrixOps F Q M) (use : ℕ → Bool)
    (viewProjection : M) (st : LightManager F Q × List (DrawCommand F Q M)) (i : ℕ) :
    LightManager F Q × List (DrawCommand F Q M) :=
  if h : i < st.1.m_lightSources.length then
    let l := st.1.m_lightSources.get ⟨i, h⟩
    if l.lightSource.type = LightType.OmniLight then
      let model := ops.matrix44
      let model := ops.set_translation model l.lightSource.position
      (st.1, st.2 ++ [DrawCommand.renderWithStandardGpuProgram l.lineDebugVis
        (ops.mul model viewProjection) l.lightSource.diffuseColor false])
    else
      let model := ops.ofOrientation l.lightSource.orientation
      let model := ops.set_translation model l.lightSource.position
      let draws := st.2 ++ [DrawCommand.renderWithStandardGpuProgram l.lineDebugVis
        (ops.mul model viewProjection) l.lightSource.diffuseColor true]
      if use i then
        (st.1, draws ++ [DrawCommand.drawArraysPoints 0 1 l.lightSource.orientation
          l.lightSource.position viewProjection l.lightSource.diffuseColor])
      else
        (st.1, draws)
  else
    st

/-- `LightManager::renderDebugVisualization` (gl), lines 50-78.  `use i` is what
`program->use()` returns when it is called for the light at index `i` (it is called at most
once per light).  The result is the manager after the call and the draws in emission
order. -/
def renderDebugVisualization {M : Type} (ops : MatrixOps F Q M) (use : ℕ → Bool)
    (viewProjection : M) (m : LightManager F Q) :
    LightManager F Q × List (DrawCommand F Q M) :=
  (List.range m.m_lightSources.length).foldl
    (renderDebugVisualizationStep ops use viewProjection) (m, [])

end LightManager
end gl


/-! ## `data/shaders/dx11/deferredshading/pscommon.h` -/

namespace pscommon

/-- The HLSL `float3`. -/
abbrev float3 (F : Type) : Type := vector3 F

/-- The HLSL `float2` (the `.xy` of a texture coordinate). -/
structure float2 (F : Type) where
  x : F
  y : F
deriving DecidableEq, Repr

/-- The HLSL intrinsics that are not field operations: the square root behind `length` and
`normalize`, and `pow`. -/
structure Intrinsics (F : Type) where
  sqrt : F → F
  pow : F → F → F

/-- The `LightData` record of the structured buffer, lines 1-13. -/
structure LightData (F : Type) where
  position : float3 F
  lightType : ℕ
  direction : float3 F
  falloff : F
  diffuseColor : float3 F
  angle : F
  ambientColor : float3 F
  dummy : ℕ
  specularColor : float3 F
  dummy2 : ℕ

/-- The `VS_OUTPUT_GBUF` pixel input (declared outside `src/`), with the members that
`computeColor` reads; `uv0` is the `.xy` part that is used. -/
structure VS_OUTPUT_GBUF (F : Type) where
  uv0 : float2 F
  tangent : float3 F
  normal : float3 F
  worldPos : float3 F

/-- The three `out` parameters of `blinn`. -/
structure BlinnOut (F : Type) where
  diffColor : float3 F
  specColor : float3 F
  ambColor : float3 F

section
variable {F : Type} [LinearOrderedField F]

/-- Component-wise `+` of HLSL vectors. -/
instance : Add (float3 F) := ⟨fun a b => ⟨a.x + b.x, a.y + b.y, a.z + b.z⟩⟩

/-- Component-wise `-` of HLSL vectors. -/
instance : Sub (float3 F) := ⟨fun a b => ⟨a.x - b.x, a.y - b.y, a.z - b.z⟩⟩

/-- Component-wise `*` of HLSL vectors. -/
instance : Mul (float3 F) := ⟨fun a b => ⟨a.x * b.x, a.y * b.y, a.z * b.z⟩⟩

/-- Unary minus of HLSL vectors. -/
instance : Neg (float3 F) := ⟨fun a => ⟨-a.x, -a.y, -a.z⟩⟩

/-- The promotion of a scalar operand to a `float3` in a mixed scalar/vector operation. -/
def splat (s : F) : float3 F := ⟨s, s, s⟩

/-- The implicit conversion of a `float3` argument to a `float` parameter: HLSL truncates
the vector to its first component. -/
def truncate (v : float3 F) : F := v.x

/-- HLSL `dot`. -/
def dot (a b : float3 F) : F := a.x * b.x + a.y * b.y + a.z * b.z

/-- HLSL `cross`. -/
def cross (a b : float3 F) : float3 F :=
  ⟨a.y * b.z - a.z * b.y, a.z * b.x - a.x * b.z, a.x * b.y - a.y * b.x⟩

/-- HLSL `length`. -/
def length (I : Intrinsics F) (v : float3 F) : F := I.sqrt (dot v v)

/-- HLSL `normalize`: the vector divided by its length. -/
def normalize (I : Intrinsics F) (v : float3 F) : float3 F :=
  ⟨v.x / length I v, v.y / length I v, v.z / length I v⟩

/-- HLSL `saturate` on a scalar: clamp to [0, 1]. -/
def saturate (s : F) : F := min (max s 0) 1

/-- HLSL `saturate` on a vector, component-wise. -/
def saturate3 (v : float3 F) : float3 F := ⟨saturate v.x, saturate v.y, saturate v.z⟩

/-- HLSL `mul(v, m)` of a row vector with the `float3x3` whose rows are `m.1`, `m.2.1`,
`m.2.2`. -/
def mul (v : float3 F) (m : float3 F × float3 F × float3 F) : float3 F :=
  splat v.x * m.1 + splat v.y * m.2.1 + splat v.z * m.2.2

/-- The attenuation of `blinn`, lines 40-41 (omni) and 47-48 (spot), which are the same
text: `len` is `length(ldv)` and `lightFalloff` is `lightsData[i].falloff`. -/
def lightPower (len lightFalloff : F) : F :=
  let falloff := 1.0 - saturate (len / (lightFalloff + 1e-7))
  falloff * falloff

/-- The `[branch]` of `blinn`, lines 32-54: the values of `lightDir` and `lightPower` for
one light.  `worldPos` is the `float` parameter of `blinn`. -/
def lightDirAndPower (I : Intrinsics F) (worldPos : F) (light : LightData F) : float3 F × F :=
  if light.lightType = 0 then
    let ldv := splat worldPos - light.position
    (normalize I ldv, lightPower (length I ldv) light.falloff)
  else if light.lightType = 1 then
    let ldv := splat worldPos - light.position
    (normalize I ldv, lightPower (length I ldv) light.falloff)
  else
    (light.direction, 1)

/-- The body of the loop of `blinn`, lines 32-61, on the accumulators. -/
def blinnStep (I : Intrinsics F) (lightsData : ℕ → LightData F) (normal : float3 F)
    (worldPos : F) (viewDir : float3 F) (specPower : F) (acc : BlinnOut F) (i : ℕ) :
    BlinnOut F :=
  let lightDir := (lightDirAndPower I worldPos (lightsData i)).1
  let ndol := max 0.0 (dot lightDir normal)
  let diffColor := acc.diffColor + (lightsData i).diffuseColor * splat ndol
  let h := normalize I (viewDir + lightDir)
  let specColor := acc.specColor
    + (lightsData i).specularColor * splat (I.pow (max (dot normal h) 0.0) specPower)
  let ambColor := acc.ambColor + (lightsData i).ambientColor
  ⟨diffColor, specColor, ambColor⟩

/-- The function `blinn`, lines 21-63.  The globals `viewPosition`, `lightsCount` and the
structured buffer `lightsData` (read at an index) are parameters.  `lightPower` is computed
in the branch and not read afterwards. -/
def blinn (I : Intrinsics F) (viewPosition : float3 F) (lightsCount : ℕ)
    (lightsData : ℕ → LightData F) (normal : float3 F) (worldPos : F) : BlinnOut F :=
  let specPower : F := 30.0
  let viewDir := normalize I (splat worldPos - viewPosition)
  (List.range lightsCount).foldl
    (blinnStep I lightsData normal worldPos viewDir specPower)
    ⟨⟨0, 0, 0⟩, ⟨0, 0, 0⟩, ⟨0, 0, 0⟩⟩

/-- The function `computeColor`, lines 65-80.  The three textures are functions from the
texture coordinate to the sampled `.rgb`. -/
def computeColor (I : Intrinsics F) (viewPosition : float3 F) (lightsCount : ℕ)
    (lightsData : ℕ → LightData F) (diffuseMap normalMap specularMap : float2 F → float3 F)
    (input : VS_OUTPUT_GBUF F) : float3 F :=
  let normalTS := normalMap input.uv0 * splat 2.0 - splat 1.0
  let ts := (input.tangent, cross input.normal input.tangent, input.normal)
  let normal := -(normalize I (mul normalTS ts))
  let out := blinn I viewPosition lightsCount lightsData normal (truncate input.worldPos)
  let diffTex := diffuseMap input.uv0
  let diffuse := diffTex * out.diffColor
  let specular := specularMap input.uv0 * out.specColor
  let ambient := diffTex * out.ambColor
  saturate3 (ambient + diffuse + specular)

end
end pscommon

/-! ## Concrete inputs used by the closed statements -/

/-- A spot light at the origin with cone angle 60 and falloff 10; the orientation is
represented by its z axis. -/
def sampleSpot (F : Type) [LinearOrderedField F] : LightSource F (vector3 F) :=
  { type := LightType.SpotLight
    position := ⟨0, 0, 0⟩
    orientation := ⟨0, 0, 1⟩
    diffuseColor := ⟨1, 1, 1⟩
    specularColor := ⟨1, 1, 1⟩
    ambientColor := ⟨0.3, 0.3, 0.3⟩
    falloff := 10
    angle := 60 }

/-- An omni light at (0, 0, -5) with falloff 10 and white diffuse and specular colour, as
a record of the structured buffer. -/
def sampleOmni (F : Type) [LinearOrderedField F] : pscommon.LightData F :=
  { position := ⟨0, 0, -5⟩
    lightType := 0
    direction := ⟨0, 0, 1⟩
    falloff := 10
    diffuseColor := ⟨1, 1, 1⟩
    angle := 60
    ambientColor := ⟨0.3, 0.3, 0.3⟩
    dummy := 0
    specularColor := ⟨1, 1, 1⟩
    dummy2 := 0 }

/-! ## The debug draws as the specification states them -/

/-- The draws of one light in the specification's words (dx11): one wireframe draw of the
light's geometry, tinted with its diffuse colour, whose model transform is the translation
alone for Omni and the orientation plus the translation for Spot/Direct; followed by one
single-point arrow draw exactly when the light is Spot or Direct, the arrow constant buffer
is there (`bufferOk`) and `use()` succeeds for this light. -/
def dx11.specLightDraws {F Q M : Type} (ops : MatrixOps F Q M) (use : ℕ → Bool)
    (viewProjection : M) (bufferOk : Bool) (i : ℕ) (l : LightData F Q) :
    List (dx11.DrawCommand F Q M) :=
  let model :=
    if l.lightSource.type = LightType.OmniLight then
      ops.set_translation ops.matrix44 l.lightSource.position
    else
      ops.set_translation (ops.ofOrientation l.lightSource.orientation) l.lightSource.position
  dx11.DrawCommand.renderWithStandardGpuProgram l.lineDebugVis (ops.mul model viewProjection)
      l.lightSource.diffuseColor ::
    (if (l.lightSource.type = LightType.SpotLight ∨ l.lightSource.type = LightType.DirectLight)
        ∧ bufferOk = true ∧ use i = true then
      [dx11.DrawCommand.drawPointList 1 0
        ⟨viewProjection, l.lightSource.orientation, l.lightSource.position,
          l.lightSource.diffuseColor⟩]
    else [])

/-- The draws of one light in the specification's words (gl): one wireframe draw of the
light's geometry, tinted with its diffuse colour, whose model transform is the translation
alone for Omni and the orientation plus the translation for Spot/Direct; followed by one
single-point arrow draw exactly when the light is Spot or Direct and `use()` succeeds for
this light. -/
def gl.specLightDraws {F Q M : Type} (ops : MatrixOps F Q M) (use : ℕ → Bool)
    (viewProjection : M) (i : ℕ) (l : LightData F Q) : List (gl.DrawCommand F Q M) :=
  let model :=
    if l.lightSource.type = LightType.OmniLight then
      ops.set_translation ops.matrix44 l.lightSource.position
    else
      ops.set_translation (ops.ofOrientation l.lightSource.orientation) l.lightSource.position
  gl.DrawCommand.renderWithStandardGpuProgram l.lineDebugVis (ops.mul model viewProjection)
      l.lightSource.diffuseColor (decide (l.lightSource.type ≠ LightType.OmniLight)) ::
    (if (l.lightSource.type = LightType.SpotLight ∨ l.lightSource.type = LightType.DirectLight)
        ∧ use i = true then
      [gl.DrawCommand.drawArraysPoints 0 1 l.lightSource.orientation l.lightSource.position
        viewProjection l.lightSource.diffuseColor]
    else [])

/-! ## The accumulation as the specification states it -/

namespace pscommon
section
variable {F : Type} [LinearOrderedField F]

/-- The diffuse sum in the specification's words: the sum over the `lightsCount` lights of
`max(0, dot(lightDir, normal)) * atten * light.diffuseColor`, where `lightDir` and `atten`
are the direction and the attenuation that the branch of `blinn` computes for the light. -/
def specDiffuseSum (I : Intrinsics F) (lightsCount : ℕ) (lightsData : ℕ → LightData F)
    (normal : float3 F) (worldPos : F) : float3 F :=
  (List.range lightsCount).foldl (fun acc i =>
    let lightDir := (lightDirAndPower I worldPos (lightsData i)).1
    let atten := (lightDirAndPower I worldPos (lightsData i)).2
    acc + splat (max 0 (dot lightDir normal) * atten) * (lightsData i).diffuseColor)
    ⟨0, 0, 0⟩

/-- The specular sum in the specification's words: the sum over the `lightsCount` lights of
`pow(max(0, dot(normal, h)), 30) * atten * light.specularColor` with
`h = normalize(viewDir + lightDir)`. -/
def specSpecularSum (I : Intrinsics F) (viewPosition : float3 F) (lightsCount : ℕ)
    (lightsData : ℕ → LightData F) (normal : float3 F) (worldPos : F) : float3 F :=
  let viewDir := normalize I (splat worldPos - viewPosition)
  (List.range lightsCount).foldl (fun acc i =>
    let lightDir := (lightDirAndPower I worldPos (lightsData i)).1
    let atten := (lightDirAndPower I worldPos (lightsData i)).2
    let h := normalize I (viewDir + lightDir)
    acc + splat (I.pow (max 0 (dot normal h)) 30 * atten) * (lightsData i).specularColor)
    ⟨0, 0, 0⟩

/-- The direction that `blinn` uses for the light at index `i`. -/
def lightDirOf (I : Intrinsics F) (lightsData : ℕ → LightData F) (worldPos : F) (i : ℕ) :
    float3 F :=
  (lightDirAndPower I worldPos (lightsData i)).1

/-- The half vector that `blinn` uses for the light at index `i`. -/
def halfVectorOf (I : Intrinsics F) (viewPosition : float3 F) (lightsData : ℕ → LightData F)
    (worldPos : F) (i : ℕ) : float3 F :=
  normalize I (normalize I (splat worldPos - viewPosition) + lightDirOf I lightsData worldPos i)

/-- The light direction in the specification's words, for a pixel at the 3D world
position `worldPos`: `normalize(worldPos - light.position)`. -/
def specLightDir (I : Intrinsics F) (worldPos : float3 F) (light : LightData F) : float3 F :=
  normalize I (worldPos - light.position)

/-- The distance in the specification's words, for a pixel at the 3D world position
`worldPos`: `|worldPos - light.position|`. -/
def specDist (I : Intrinsics F) (worldPos : float3 F) (light : LightData F) : F :=
  length I (worldPos - light.position)

end
end pscommon

/-! ## The shader with rounded arithmetic

The definitions of `pscommon` above compute in the field `F` without rounding.  The
definitions below are the same lines of `pscommon.h` with the result of every `+`, `-`,
`*` and `/` passed through a rounding function `rnd`, and with the intrinsics `dot`,
`length`, `normalize` and `pow`, whose rounding HLSL leaves to the implementation, as
parameters.  With `rnd` the identity they are the definitions above. -/

namespace pscommon
section
variable {F : Type} [LinearOrderedField F]

/-- The float arithmetic of the shader: the rounding applied to the exact result of an
arithmetic operation, and the intrinsics. -/
structure FloatModel (F : Type) where
  rnd : F → F
  dot : float3 F → float3 F → F
  length : float3 F → F
  normalize : float3 F → float3 F
  pow : F → F → F

/-- The float model without rounding: the arithmetic of the field and the intrinsics of
the unrounded definitions. -/
def exactModel (I : Intrinsics F) : FloatModel F :=
  { rnd := fun x => x
    dot := dot
    length := length I
    normalize := normalize I
    pow := I.pow }

/-- The float model with rounding `rnd` whose intrinsics are the exact ones followed by
one rounding of each result. -/
def roundedModel (rnd : F → F) (I : Intrinsics F) : FloatModel F :=
  { rnd := rnd
    dot := fun a b => rnd (dot a b)
    length := fun v => rnd (I.sqrt (dot v v))
    normalize := fun v =>
      ⟨rnd (v.x / rnd (I.sqrt (dot v v))), rnd (v.y / rnd (I.sqrt (dot v v))),
        rnd (v.z / rnd (I.sqrt (dot v v)))⟩
    pow := fun x y => rnd (I.pow x y) }

/-- Component-wise `+` of HLSL vectors, each component rounded. -/
def addR (M : FloatModel F) (a b : float3 F) : float3 F :=
  ⟨M.rnd (a.x + b.x), M.rnd (a.y + b.y), M.rnd (a.z + b.z)⟩

/-- Component-wise `-` of HLSL vectors, each component rounded. -/
def subR (M : FloatModel F) (a b : float3 F) : float3 F :=
  ⟨M.rnd (a.x - b.x), M.rnd (a.y - b.y), M.rnd (a.z - b.z)⟩

/-- Component-wise `*` of HLSL vectors, each component rounded. -/
def mulR (M : FloatModel F) (a b : float3 F) : float3 F :=
  ⟨M.rnd (a.x * b.x), M.rnd (a.y * b.y), M.rnd (a.z * b.z)⟩

/-- The attenuation of `blinn`, lines 40-41 and 47-48, in float arithmetic: the literal
`1e-7`, the sum, the quotient, the difference and the product are rounded (`1.0` is a
float). -/
def lightPowerR (rnd : F → F) (len lightFalloff : F) : F :=
  let falloff := rnd (1.0 - saturate (rnd (len / rnd (lightFalloff + rnd 1e-7))))
  rnd (falloff * falloff)

/-- The `[branch]` of `blinn`, lines 32-54, in float arithmetic. -/
def lightDirAndPowerR (M : FloatModel F) (worldPos : F) (light : LightData F) :
    float3 F × F :=
  if light.lightType = 0 then
    let ldv := subR M (splat worldPos) light.position
    (M.normalize ldv, lightPowerR M.rnd (M.length ldv) light.falloff)
  else if light.lightType = 1 then
    let ldv := subR M (splat worldPos) light.position
    (M.normalize ldv, lightPowerR M.rnd (M.length ldv) light.falloff)
  else
    (light.direction, 1)

/-- The body of the loop of `blinn`, lines 32-61, in float arithmetic. -/
def blinnStepR (M : FloatModel F) (lightsData : ℕ → LightData F) (normal : float3 F)
    (worldPos : F) (viewDir : float3 F) (specPower : F) (acc : BlinnOut F) (i : ℕ) :
    BlinnOut F :=
  let lightDir := (lightDirAndPowerR M worldPos (lightsData i)).1
  let ndol := max 0.0 (M.dot lightDir normal)
  let diffColor := addR M acc.diffColor (mulR M (lightsData i).diffuseColor (splat ndol))
  let h := M.normalize (addR M viewDir lightDir)
  let specColor := addR M acc.specColor
    (mulR M (lightsData i).specularColor (splat (M.pow (max (M.dot normal h) 0.0) specPower)))
  let ambColor := addR M acc.ambColor (lightsData i).ambientColor
  ⟨diffColor, specColor, ambColor⟩

/-- The function `blinn`, lines 21-63, in float arithmetic. -/
def blinnR (M : FloatModel F) (viewPosition : float3 F) (lightsCount : ℕ)
    (lightsData : ℕ → LightData F) (normal : float3 F) (worldPos : F) : BlinnOut F :=
  let specPower : F := 30.0
  let viewDir := M.normalize (subR M (splat worldPos) viewPosition)
  (List.range lightsCount).foldl
    (blinnStepR M lightsData normal worldPos viewDir specPower)
    ⟨⟨0, 0, 0⟩, ⟨0, 0, 0⟩, ⟨0, 0, 0⟩⟩

/-- The nearest integer to `m`, ties to the even one. -/
def roundHalfEven [FloorRing F] (m : F) : ℤ :=
  if m - ⌊m⌋ < 1 / 2 then ⌊m⌋
  else if 1 / 2 < m - ⌊m⌋ then ⌊m⌋ + 1
  else if ⌊m⌋ % 2 = 0 then ⌊m⌋
  else ⌊m⌋ + 1

/-- The binary32 rounding of a number in the normal range (round to nearest, ties to even,
24-bit significand; overflow and subnormals are not modelled): with
`2^k <= |q| < 2^(k+1)` the result is the multiple of `2^(k-23)` nearest to `q`. -/
def binary32Round [FloorRing F] (q : F) : F :=
  if q = 0 then 0
  else
    let e : ℤ := Int.log 2 |q| - 23
    (roundHalfEven (q / (2 : F) ^ e) : F) * (2 : F) ^ e

end
end pscommon

/-! ## Theorems: `getRawLightData` -/

section RawData
variable {F Q M : Type} [LinearOrderedField F]

/-- C1 (what the code does): for an index at or past the light count, the dx11
`getRawLightData` returns the documented fallback record (position origin, direction
(0,0,1), type Omni, white diffuse and specular, ambient 0.3, falloff 1000, angle
`n_deg2rad 60`), whereas the gl `getRawLightData` returns a record whose direction is the
zero vector (0,0,0), which is not the forward axis (0,0,1), and whose angle is 60. -/
theorem getRawLightData_out_of_range (n_deg2rad : F → F) (z_direction : Q → vector3 F)
    (md : dx11.LightManager F Q M) (mg : gl.LightManager F Q) (index : ℕ)
    (hd : index ≥ md.m_lightSources.length) (hg : index ≥ mg.m_lightSources.length) :
    dx11.LightManager.getRawLightData n_deg2rad z_direction md index =
      { position := ⟨0, 0, 0⟩
        lightType := LightType.OmniLight.toUInt
        direction := ⟨0, 0, 1⟩
        falloff := 1000
        diffuseColor := ⟨1, 1, 1⟩
        angle := n_deg2rad 60
        ambientColor := ⟨0.3, 0.3, 0.3⟩
        specularColor := ⟨1, 1, 1⟩ } ∧
    gl.LightManager.getRawLightData z_direction mg index =
      { position := ⟨0, 0, 0⟩
        lightType := LightType.OmniLight.toUInt
        direction := ⟨0, 0, 0⟩
        falloff := 1000
        diffuseColor := ⟨1, 1, 1⟩
        angle := 60
        ambientColor := ⟨0.3, 0.3, 0.3⟩
        specularColor := ⟨1, 1, 1⟩ } ∧
    (gl.LightManager.getRawLightData z_direction mg index).direction ≠ ⟨0, 0, 1⟩ := by
  refine ⟨?_, ?_, ?_⟩
  · simp only [dx11.LightManager.getRawLightData, dif_pos hd]
    norm_num
  · simp only [gl.LightManager.getRawLightData, dif_pos hg]
    norm_num
  · simp only [gl.LightManager.getRawLightData, dif_pos hg]
    intro h
    have hz : (0 : F) = 1 := congrArg vector3.z h
    exact zero_ne_one hz

/-- C1, at the empty managers and index 0 (the failing input of the gl variant), with the
degree-to-radian conversion over the reals. -/
theorem getRawLightData_out_of_range_witness :
    (0 ≥ (⟨[], none⟩ : dx11.LightManager ℝ (vector3 ℝ) Unit).m_lightSources.length ∧
      0 ≥ (⟨[]⟩ : gl.LightManager ℝ (vector3 ℝ)).m_lightSources.length) ∧
    (gl.LightManager.getRawLightData (fun q : vector3 ℝ => q) ⟨[]⟩ 0).direction = ⟨0, 0, 0⟩ ∧
    (gl.LightManager.getRawLightData (fun q : vector3 ℝ => q) ⟨[]⟩ 0).direction ≠ ⟨0, 0, 1⟩ :=
  ⟨⟨Nat.le_refl 0, Nat.le_refl 0⟩,
    congrArg LightRawData.direction
      (getRawLightData_out_of_range (fun d : ℝ => d * Real.pi / 180) (fun q : vector3 ℝ => q)
        (⟨[], none⟩ : dx11.LightManager ℝ (vector3 ℝ) Unit) ⟨[]⟩ 0
        (Nat.le_refl 0) (Nat.le_refl 0)).2.1,
    (getRawLightData_out_of_range (fun d : ℝ => d * Real.pi / 180) (fun q : vector3 ℝ => q)
      (⟨[], none⟩ : dx11.LightManager ℝ (vector3 ℝ) Unit) ⟨[]⟩ 0
      (Nat.le_refl 0) (Nat.le_refl 0)).2.2⟩

/-- C2 (counterexample): in the dx11 variant the angle is not copied verbatim.  After
adding one spot light whose stored angle is 60, `getRawLightData(0)` returns the angle
`n_deg2rad(60)`, the conversion to radians, which differs from 60. -/
theorem getRawLightData_dx11_angle_converted :
    (dx11.LightManager.getRawLightData (fun d : ℝ => d * Real.pi / 180)
      (fun q : vector3 ℝ => q)
      (dx11.LightManager.addLightSource ⟨Real.pi, Real.cos, Real.sin⟩
        (⟨[], none⟩ : dx11.LightManager ℝ (vector3 ℝ) Unit) (sampleSpot ℝ)) 0).angle
      ≠ (sampleSpot ℝ).angle := by
  simp [dx11.LightManager.getRawLightData, dx11.LightManager.addLightSource,
    dx11.LightManager.getLightSource, sampleSpot]
  intro h
  linarith [Real.pi_le_four]

/-- C2 (amended): for every manager state and every valid index, `getRawLightData` copies
position, falloff, diffuseColor, ambientColor and specularColor verbatim from the stored
light, direction is `orientation.z_direction()` and lightType is the integer value of the
stored type, in both variants; the angle is copied verbatim in the gl variant and is
`n_deg2rad` of the stored angle in the dx11 variant. -/
theorem getRawLightData_in_range (n_deg2rad : F → F) (z_direction : Q → vector3 F)
    (md : dx11.LightManager F Q M) (mg : gl.LightManager F Q) (i : ℕ)
    (hd : i < md.m_lightSources.length) (hg : i < mg.m_lightSources.length) :
    dx11.LightManager.getRawLightData n_deg2rad z_direction md i =
      { position := (md.m_lightSources.get ⟨i, hd⟩).lightSource.position
        lightType := (md.m_lightSources.get ⟨i, hd⟩).lightSource.type.toUInt
        direction := z_direction (md.m_lightSources.get ⟨i, hd⟩).lightSource.orientation
        falloff := (md.m_lightSources.get ⟨i, hd⟩).lightSource.falloff
        diffuseColor := (md.m_lightSources.get ⟨i, hd⟩).lightSource.diffuseColor
        angle := n_deg2rad (md.m_lightSources.get ⟨i, hd⟩).lightSource.angle
        ambientColor := (md.m_lightSources.get ⟨i, hd⟩).lightSource.ambientColor
        specularColor := (md.m_lightSources.get ⟨i, hd⟩).lightSource.specularColor } ∧
    gl.LightManager.getRawLightData z_direction mg i =
      { position := (mg.m_lightSources.get ⟨i, hg⟩).lightSource.position
        lightType := (mg.m_lightSources.get ⟨i, hg⟩).lightSource.type.toUInt
        direction := z_direction (mg.m_lightSources.get ⟨i, hg⟩).lightSource.orientation
        falloff := (mg.m_lightSources.get ⟨i, hg⟩).lightSource.falloff
        diffuseColor := (mg.m_lightSources.get ⟨i, hg⟩).lightSource.diffuseColor
        angle := (mg.m_lightSources.get ⟨i, hg⟩).lightSource.angle
        ambientColor := (mg.m_lightSources.get ⟨i, hg⟩).lightSource.ambientColor
        specularColor := (mg.m_lightSources.get ⟨i, hg⟩).lightSource.specularColor } := by
  constructor
  · simp only [dx11.LightManager.getRawLightData, dif_neg (Nat.not_le_of_lt hd),
      dx11.LightManager.getLightSource]
  · simp only [gl.LightManager.getRawLightData, dif_neg (Nat.not_le_of_lt hg),
      gl.LightManager.getLightSource]

/-- C2 (amended), at the managers holding one spot light and index 0. -/
theorem getRawLightData_in_range_witness :
    (0 < (⟨[⟨sampleSpot ℝ, ⟨[]⟩⟩], none⟩ :
        dx11.LightManager ℝ (vector3 ℝ) Unit).m_lightSources.length ∧
      0 < (⟨[⟨sampleSpot ℝ, ⟨[]⟩⟩]⟩ : gl.LightManager ℝ (vector3 ℝ)).m_lightSources.length) ∧
    (dx11.LightManager.getRawLightData (fun d : ℝ => d * Real.pi / 180)
      (fun q : vector3 ℝ => q)
      (⟨[⟨sampleSpot ℝ, ⟨[]⟩⟩], none⟩ : dx11.LightManager ℝ (vector3 ℝ) Unit) 0).angle
      = (sampleSpot ℝ).angle * Real.pi / 180 ∧
    (gl.LightManager.getRawLightData (fun q : vector3 ℝ => q)
      (⟨[⟨sampleSpot ℝ, ⟨[]⟩⟩]⟩ : gl.LightManager ℝ (vector3 ℝ)) 0).angle
      = (sampleSpot ℝ).angle :=
  ⟨⟨Nat.zero_lt_one, Nat.zero_lt_one⟩,
    congrArg LightRawData.angle
      (getRawLightData_in_range (fun d : ℝ => d * Real.pi / 180) (fun q : vector3 ℝ => q)
        (⟨[⟨sampleSpot ℝ, ⟨[]⟩⟩], none⟩ : dx11.LightManager ℝ (vector3 ℝ) Unit)
        ⟨[⟨sampleSpot ℝ, ⟨[]⟩⟩]⟩ 0 Nat.zero_lt_one Nat.zero_lt_one).1,
    congrArg LightRawData.angle
      (getRawLightData_in_range (fun d : ℝ => d * Real.pi / 180) (fun q : vector3 ℝ => q)
        (⟨[⟨sampleSpot ℝ, ⟨[]⟩⟩], none⟩ : dx11.LightManager ℝ (vector3 ℝ) Unit)
        ⟨[⟨sampleSpot ℝ, ⟨[]⟩⟩]⟩ 0 Nat.zero_lt_one Nat.zero_lt_one).2⟩

end RawData

/-! ## Theorems: the accumulation of `blinn` -/

namespace pscommon
section
variable {F : Type} [LinearOrderedField F]

theorem float3_add (a b : float3 F) : a + b = ⟨a.x + b.x, a.y + b.y, a.z + b.z⟩ := rfl

theorem float3_sub (a b : float3 F) : a - b = ⟨a.x - b.x, a.y - b.y, a.z - b.z⟩ := rfl

theorem float3_mul (a b : float3 F) : a * b = ⟨a.x * b.x, a.y * b.y, a.z * b.z⟩ := rfl

theorem float3_neg (a : float3 F) : -a = ⟨-a.x, -a.y, -a.z⟩ := rfl

/-- What the loop of `blinn` accumulates: each of the three sums, component by component,
as a finite sum over the light indices.  No term contains the attenuation. -/
theorem blinn_eq_sums (I : Intrinsics F) (viewPosition : float3 F) (lightsCount : ℕ)
    (lightsData : ℕ → LightData F) (normal : float3 F) (worldPos : F) :
    blinn I viewPosition lightsCount lightsData normal worldPos =
      ⟨⟨∑ i in Finset.range lightsCount, (lightsData i).diffuseColor.x
            * max 0 (dot (lightDirOf I lightsData worldPos i) normal),
        ∑ i in Finset.range lightsCount, (lightsData i).diffuseColor.y
            * max 0 (dot (lightDirOf I lightsData worldPos i) normal),
        ∑ i in Finset.range lightsCount, (lightsData i).diffuseColor.z
            * max 0 (dot (lightDirOf I lightsData worldPos i) normal)⟩,
       ⟨∑ i in Finset.range lightsCount, (lightsData i).specularColor.x
            * I.pow (max (dot normal (halfVectorOf I viewPosition lightsData worldPos i)) 0) 30,
        ∑ i in Finset.range lightsCount, (lightsData i).specularColor.y
            * I.pow (max (dot normal (halfVectorOf I viewPosition lightsData worldPos i)) 0) 30,
        ∑ i in Finset.range lightsCount, (lightsData i).specularColor.z
            * I.pow (max (dot normal (halfVectorOf I viewPosition lightsData worldPos i)) 0) 30⟩,
       ⟨∑ i in Finset.range lightsCount, (lightsData i).ambientColor.x,
        ∑ i in Finset.range lightsCount, (lightsData i).ambientColor.y,
        ∑ i in Finset.range lightsCount, (lightsData i).ambientColor.z⟩⟩ := by
  unfold blinn
  induction lightsCount with
  | zero => simp
  | succ n ih =>
    simp only [List.range_succ, List.foldl_append, List.foldl_cons, List.foldl_nil]
    simp only [] at ih
    rw [ih]
    simp only [blinnStep, float3_add, float3_mul, splat, Finset.sum_range_succ, lightDirOf,
      halfVectorOf]
    norm_num

theorem real_sqrt_4 : Real.sqrt 4 = 2 := by
  rw [show (4 : ℝ) = 2 ^ 2 by norm_num]
  exact Real.sqrt_sq (by norm_num)

theorem real_sqrt_25 : Real.sqrt 25 = 5 := by
  rw [show (25 : ℝ) = 5 ^ 2 by norm_num]
  exact Real.sqrt_sq (by norm_num)

theorem real_sqrt_169 : Real.sqrt 169 = 13 := by
  rw [show (169 : ℝ) = 13 ^ 2 by norm_num]
  exact Real.sqrt_sq (by norm_num)

/-- C3 (failing input): one omni light at (0, 0, -5) with falloff 10 and diffuse colour
(1,1,1), a pixel at the origin (distance 5 from the light) with normal (0,0,1), so that
N.L = 1.  `blinn` returns the diffuse sum (1,1,1): the attenuation is not applied.  The sum
the claim states, `max(0, N.L) * atten * diffuseColor`, is (1 - 5/(10 + 1e-7))^2, about
0.25, per channel. -/
theorem blinn_diffuse_without_attenuation :
    (blinn ⟨Real.sqrt, fun x y => x ^ y⟩ ⟨0, 0, -1⟩ 1 (fun _ => sampleOmni ℝ)
        ⟨0, 0, 1⟩ 0).diffColor = ⟨1, 1, 1⟩ ∧
    specDiffuseSum ⟨Real.sqrt, fun x y => x ^ y⟩ 1 (fun _ => sampleOmni ℝ) ⟨0, 0, 1⟩ 0 =
      ⟨(50000001 / 100000001) ^ 2, (50000001 / 100000001) ^ 2,
        (50000001 / 100000001) ^ 2⟩ ∧
    ((50000001 / 100000001) ^ 2 : ℝ) < 1 := by
  refine ⟨?_, ?_, by norm_num⟩
  · rw [blinn_eq_sums]
    simp [lightDirOf, lightDirAndPower, sampleOmni, normalize, length, dot, splat, float3_sub,
      real_sqrt_25]
  · simp [specDiffuseSum, List.range_succ, lightDirAndPower, sampleOmni, normalize, length,
      dot, splat, float3_sub, float3_add, float3_mul, real_sqrt_25, lightPower, saturate]
    norm_num

/-- C4 (failing input): the omni light at (0, 0, -5) and the pixel whose world position is
(0, 12, 0).  `computeColor` hands `input.worldPos` to the `float` parameter of `blinn`, so
`blinn` works with 0, the x component: its light direction is (0,0,1) and its attenuation
is the one of distance 5.  The 3D difference that the claim states has direction
(0, 12/13, 5/13) and length 13. -/
theorem blinn_lightDir_from_worldPos_x_only :
    lightDirAndPower ⟨Real.sqrt, fun x y => x ^ y⟩ (truncate (⟨0, 12, 0⟩ : float3 ℝ))
        (sampleOmni ℝ) = (⟨0, 0, 1⟩, lightPower 5 10) ∧
    specLightDir ⟨Real.sqrt, fun x y => x ^ y⟩ ⟨0, 12, 0⟩ (sampleOmni ℝ) =
      ⟨0, 12 / 13, 5 / 13⟩ ∧
    specDist ⟨Real.sqrt, fun x y => x ^ y⟩ ⟨0, 12, 0⟩ (sampleOmni ℝ) = 13 := by
  refine ⟨?_, ?_, ?_⟩
  · simp [lightDirAndPower, truncate, sampleOmni, normalize, length, dot, splat, float3_sub,
      real_sqrt_25]
  · simp [specLightDir, sampleOmni, normalize, length, dot, float3_sub]
    norm_num [real_sqrt_169]
  · simp [specDist, sampleOmni, length, dot, float3_sub]
    norm_num [real_sqrt_169]

/-- The colour that `computeColor` returns does not change when the y and z components of
the pixel's world position change. -/
theorem computeColor_worldPos_yz_irrelevant (I : Intrinsics F) (viewPosition : float3 F)
    (lightsCount : ℕ) (lightsData : ℕ → LightData F)
    (diffuseMap normalMap specularMap : float2 F → float3 F) (input : VS_OUTPUT_GBUF F)
    (y z : F) :
    computeColor I viewPosition lightsCount lightsData diffuseMap normalMap specularMap
        { input with worldPos := ⟨input.worldPos.x, y, z⟩ } =
      computeColor I viewPosition lightsCount lightsData diffuseMap normalMap specularMap
        input := rfl

/-- C9 (failing input): the omni light at (0, 0, -5) with falloff 10 and specular colour
(1,1,1), the view position (0, 0, -1), a pixel at the origin with normal (0,0,1): the half
vector is (0,0,1) and `pow(max(0, N.h), 30) = 1`.  `blinn` returns the specular sum
(1,1,1): the attenuation is not applied.  The sum the claim states,
`pow(max(0, N.h), 30) * atten * specularColor`, is (1 - 5/(10 + 1e-7))^2, about 0.25, per
channel. -/
theorem blinn_specular_without_attenuation :
    (blinn ⟨Real.sqrt, fun x y => x ^ y⟩ ⟨0, 0, -1⟩ 1 (fun _ => sampleOmni ℝ)
        ⟨0, 0, 1⟩ 0).specColor = ⟨1, 1, 1⟩ ∧
    specSpecularSum ⟨Real.sqrt, fun x y => x ^ y⟩ ⟨0, 0, -1⟩ 1 (fun _ => sampleOmni ℝ)
        ⟨0, 0, 1⟩ 0 =
      ⟨(50000001 / 100000001) ^ 2, (50000001 / 100000001) ^ 2,
        (50000001 / 100000001) ^ 2⟩ ∧
    ((50000001 / 100000001) ^ 2 : ℝ) < 1 := by
  refine ⟨?_, ?_, by norm_num⟩
  · rw [blinn_eq_sums]
    simp [halfVectorOf, lightDirOf, lightDirAndPower, sampleOmni, normalize, length, dot, splat,
      float3_sub, float3_add, real_sqrt_25]
  · simp [specSpecularSum, List.range_succ, lightDirAndPower, sampleOmni, normalize, length,
      dot, splat, float3_sub, float3_add, float3_mul, real_sqrt_25, lightPower, saturate]
    norm_num [real_sqrt_4]

theorem saturate_nonneg (s : F) : 0 ≤ saturate s :=
  le_min (le_max_right _ _) zero_le_one

theorem saturate_le_one (s : F) : saturate s ≤ 1 := min_le_right _ _

theorem saturate_mono {s t : F} (h : s ≤ t) : saturate s ≤ saturate t :=
  min_le_min (max_le_max h le_rfl) le_rfl

theorem saturate_of_one_le {s : F} (h : 1 ≤ s) : saturate s = 1 := by
  unfold saturate
  rw [max_eq_left (le_trans zero_le_one h), min_eq_right h]

theorem saturate_of_mem {s : F} (h0 : 0 ≤ s) (h1 : s ≤ 1) : saturate s = s := by
  unfold saturate
  rw [max_eq_left h0, min_eq_left h1]

theorem eps_pos : (0 : F) < 1e-7 := by norm_num

/-- The attenuation that the branch of `blinn` computes for an omni or spot light is
`lightPower` at the length of the light vector. -/
theorem lightDirAndPower_omni_spot (I : Intrinsics F) (worldPos : F) (light : LightData F)
    (h : light.lightType = 0 ∨ light.lightType = 1) :
    (lightDirAndPower I worldPos light).2
      = lightPower (length I (splat worldPos - light.position)) light.falloff := by
  rcases h with h | h <;> simp [lightDirAndPower, h]

end
end pscommon

/-! ## Theorems: `addLightSource` -/

section Insertion
variable {F Q M : Type} [LinearOrderedField F]

theorem dx11_addLightSource_lights (T : Trig F) (m : dx11.LightManager F Q M)
    (s : LightSource F Q) :
    ∃ e : LightData F Q, e.lightSource = s ∧
      (dx11.LightManager.addLightSource T m s).m_lightSources = m.m_lightSources ++ [e] ∧
      (dx11.LightManager.addLightSource T m s).m_arrowDataBuffer = m.m_arrowDataBuffer :=
  ⟨_, rfl, rfl, rfl⟩

theorem gl_addLightSource_lights (T : Trig F) (m : gl.LightManager F Q) (s : LightSource F Q) :
    ∃ e : LightData F Q, e.lightSource = s ∧
      (gl.LightManager.addLightSource T m s).m_lightSources = m.m_lightSources ++ [e] :=
  ⟨_, rfl, rfl⟩

theorem dx11_foldl_addLightSource_sources (T : Trig F) (ss : List (LightSource F Q))
    (m : dx11.LightManager F Q M) :
    (ss.foldl (dx11.LightManager.addLightSource T) m).m_lightSources.map LightData.lightSource
      = m.m_lightSources.map LightData.lightSource ++ ss := by
  induction ss generalizing m with
  | nil => simp
  | cons s ss ih =>
    rw [List.foldl_cons, ih]
    simp [dx11.LightManager.addLightSource]

theorem gl_foldl_addLightSource_sources (T : Trig F) (ss : List (LightSource F Q))
    (m : gl.LightManager F Q) :
    (ss.foldl (gl.LightManager.addLightSource T) m).m_lightSources.map LightData.lightSource
      = m.m_lightSources.map LightData.lightSource ++ ss := by
  induction ss generalizing m with
  | nil => simp
  | cons s ss ih =>
    rw [List.foldl_cons, ih]
    simp [gl.LightManager.addLightSource]

theorem dx11_getRawLightData_of_sources (n_deg2rad : F → F) (z_direction : Q → vector3 F)
    (m : dx11.LightManager F Q M) (ss : List (LightSource F Q))
    (hm : m.m_lightSources.map LightData.lightSource = ss) (i : ℕ) :
    dx11.LightManager.getRawLightData n_deg2rad z_direction m i =
      match ss[i]? with
      | some s =>
        { position := s.position
          lightType := s.type.toUInt
          direction := z_direction s.orientation
          falloff := s.falloff
          diffuseColor := s.diffuseColor
          angle := n_deg2rad s.angle
          ambientColor := s.ambientColor
          specularColor := s.specularColor }
      | none =>
        { position := ⟨0, 0, 0⟩
          lightType := LightType.OmniLight.toUInt
          direction := ⟨0, 0, 1⟩
          falloff := 1000
          diffuseColor := ⟨1, 1, 1⟩
          angle := n_deg2rad 60
          ambientColor := ⟨0.3, 0.3, 0.3⟩
          specularColor := ⟨1, 1, 1⟩ } := by
  subst hm
  by_cases h : i < m.m_lightSources.length
  · simp [dx11.LightManager.getRawLightData, dx11.LightManager.getLightSource, h,
      List.getElem?_eq_getElem, Nat.not_le.mpr h]
  · simp only [dx11.LightManager.getRawLightData, dif_pos (Nat.le_of_not_lt h)]
    rw [List.getElem?_eq_none (by simpa using Nat.le_of_not_lt h)]
    norm_num

theorem gl_getRawLightData_of_sources (z_direction : Q → vector3 F)
    (m : gl.LightManager F Q) (ss : List (LightSource F Q))
    (hm : m.m_lightSources.map LightData.lightSource = ss) (i : ℕ) :
    gl.LightManager.getRawLightData z_direction m i =
      match ss[i]? with
      | some s =>
        { position := s.position
          lightType := s.type.toUInt
          direction := z_direction s.orientation
          falloff := s.falloff
          diffuseColor := s.diffuseColor
          angle := s.angle
          ambientColor := s.ambientColor
          specularColor := s.specularColor }
      | none =>
        { position := ⟨0, 0, 0⟩
          lightType := LightType.OmniLight.toUInt
          direction := ⟨0, 0, 0⟩
          falloff := 1000
          diffuseColor := ⟨1, 1, 1⟩
          angle := 60
          ambientColor := ⟨0.3, 0.3, 0.3⟩
          specularColor := ⟨1, 1, 1⟩ } := by
  subst hm
  by_cases h : i < m.m_lightSources.length
  · simp [gl.LightManager.getRawLightData, gl.LightManager.getLightSource, h,
      List.getElem?_eq_getElem, Nat.not_le.mpr h]
  · simp only [gl.LightManager.getRawLightData, dif_pos (Nat.le_of_not_lt h)]
    rw [List.getElem?_eq_none (by simpa using Nat.le_of_not_lt h)]
    norm_num

/-- C5: insertion order is the index contract, in both variants.  After `addLightSource` has
been called with `s_0 .. s_{n-1}` on a manager without lights, the light count is `n`, the
entry at every index `i` holds `s_i` (both sides are absent for `i >= n`), and
`getRawLightData(i)` is the record derived from `s_i` for `i < n` (the out-of-range record
otherwise); one more `addLightSource s` appends exactly one entry, holding `s`, at index
`n` and leaves the entries before it as they were. -/
theorem addLightSource_insertion_order (T : Trig F) (n_deg2rad : F → F)
    (z_direction : Q → vector3 F) (ss : List (LightSource F Q)) (s : LightSource F Q)
    (buffer : Option (dx11.UniformBuffer F Q M)) :
    ((ss.foldl (dx11.LightManager.addLightSource T) ⟨[], buffer⟩).m_lightSources.length
        = ss.length ∧
      (∀ i : ℕ, ((ss.foldl (dx11.LightManager.addLightSource T)
          ⟨[], buffer⟩).m_lightSources[i]?).map LightData.lightSource = ss[i]?) ∧
      (∀ i : ℕ, dx11.LightManager.getRawLightData n_deg2rad z_direction
          (ss.foldl (dx11.LightManager.addLightSource T) ⟨[], buffer⟩) i =
        match ss[i]? with
        | some si =>
          { position := si.position
            lightType := si.type.toUInt
            direction := z_direction si.orientation
            falloff := si.falloff
            diffuseColor := si.diffuseColor
            angle := n_deg2rad si.angle
            ambientColor := si.ambientColor
            specularColor := si.specularColor }
        | none =>
          { position := ⟨0, 0, 0⟩
            lightType := LightType.OmniLight.toUInt
            direction := ⟨0, 0, 1⟩
            falloff := 1000
            diffuseColor := ⟨1, 1, 1⟩
            angle := n_deg2rad 60
            ambientColor := ⟨0.3, 0.3, 0.3⟩
            specularColor := ⟨1, 1, 1⟩ }) ∧
      ∃ e : LightData F Q, e.lightSource = s ∧
        (dx11.LightManager.addLightSource T
            (ss.foldl (dx11.LightManager.addLightSource T) ⟨[], buffer⟩) s).m_lightSources
          = (ss.foldl (dx11.LightManager.addLightSource T) ⟨[], buffer⟩).m_lightSources
              ++ [e]) ∧
    ((ss.foldl (gl.LightManager.addLightSource T) ⟨[]⟩).m_lightSources.length = ss.length ∧
      (∀ i : ℕ, ((ss.foldl (gl.LightManager.addLightSource T)
          ⟨[]⟩).m_lightSources[i]?).map LightData.lightSource = ss[i]?) ∧
      (∀ i : ℕ, gl.LightManager.getRawLightData z_direction
          (ss.foldl (gl.LightManager.addLightSource T) ⟨[]⟩) i =
        match ss[i]? with
        | some si =>
          { position := si.position
            lightType := si.type.toUInt
            direction := z_direction si.orientation
            falloff := si.falloff
            diffuseColor := si.diffuseColor
            angle := si.angle
            ambientColor := si.ambientColor
            specularColor := si.specularColor }
        | none =>
          { position := ⟨0, 0, 0⟩
            lightType := LightType.OmniLight.toUInt
            direction := ⟨0, 0, 0⟩
            falloff := 1000
            diffuseColor := ⟨1, 1, 1⟩
            angle := 60
            ambientColor := ⟨0.3, 0.3, 0.3⟩
            specularColor := ⟨1, 1, 1⟩ }) ∧
      ∃ e : LightData F Q, e.lightSource = s ∧
        (gl.LightManager.addLightSource T
            (ss.foldl (gl.LightManager.addLightSource T) ⟨[]⟩) s).m_lightSources
          = (ss.foldl (gl.LightManager.addLightSource T) ⟨[]⟩).m_lightSources ++ [e]) := by
  have hd := dx11_foldl_addLightSource_sources T ss (⟨[], buffer⟩ : dx11.LightManager F Q M)
  have hg := gl_foldl_addLightSource_sources T ss (⟨[]⟩ : gl.LightManager F Q)
  simp only [List.map_nil, List.nil_append] at hd hg
  refine ⟨⟨?_, ?_, ?_, ?_⟩, ⟨?_, ?_, ?_, ?_⟩⟩
  · have := congrArg List.length hd
    simpa using this
  · intro i
    rw [← List.getElem?_map, hd]
  · exact dx11_getRawLightData_of_sources n_deg2rad z_direction _ ss hd
  · obtain ⟨e, he, hl, _⟩ := dx11_addLightSource_lights T
      (ss.foldl (dx11.LightManager.addLightSource T) ⟨[], buffer⟩) s
    exact ⟨e, he, hl⟩
  · have := congrArg List.length hg
    simpa using this
  · intro i
    rw [← List.getElem?_map, hg]
  · exact gl_getRawLightData_of_sources z_direction _ ss hg
  · exact gl_addLightSource_lights T (ss.foldl (gl.LightManager.addLightSource T) ⟨[]⟩) s

end Insertion

/-! ## Theorems: the debug-geometry builders -/

section DebugGeometry
variable {F : Type} [LinearOrderedField F]

/-- C8: the debug-geometry builders return a point list that does not depend on the
`Line3D` they are handed (the same ordered list on every call), and the point counts are:
Direct 5 in dx11, closed (the last point is the first), and 4 in gl; Omni 43 in both
variants; Spot 13 in dx11, which is the 12 circle samples of the gl variant followed by a
copy of the first one, and 12 in gl. -/
theorem debug_geometry_point_counts (T : Trig F) (line line' : Line3D F) :
    ((dx11.LightManager.createDirectLightDebugVisualization line
        = dx11.LightManager.createDirectLightDebugVisualization line' ∧
      dx11.LightManager.createOmniLightDebugVisualization T line
        = dx11.LightManager.createOmniLightDebugVisualization T line' ∧
      dx11.LightManager.createSpotLightDebugVisualization T line
        = dx11.LightManager.createSpotLightDebugVisualization T line' ∧
      gl.LightManager.createDirectLightDebugVisualization line
        = gl.LightManager.createDirectLightDebugVisualization line' ∧
      gl.LightManager.createOmniLightDebugVisualization T line
        = gl.LightManager.createOmniLightDebugVisualization T line' ∧
      gl.LightManager.createSpotLightDebugVisualization T line
        = gl.LightManager.createSpotLightDebugVisualization T line')) ∧
    ((dx11.LightManager.createDirectLightDebugVisualization line).points.length = 5 ∧
      (dx11.LightManager.createDirectLightDebugVisualization line).points.getLast?
        = (dx11.LightManager.createDirectLightDebugVisualization line).points.head? ∧
      (gl.LightManager.createDirectLightDebugVisualization line).points.length = 4) ∧
    ((dx11.LightManager.createOmniLightDebugVisualization T line).points.length = 43 ∧
      (gl.LightManager.createOmniLightDebugVisualization T line).points.length = 43) ∧
    ((dx11.LightManager.createSpotLightDebugVisualization T line).points.length = 13 ∧
      (gl.LightManager.createSpotLightDebugVisualization T line).points.length = 12 ∧
      (dx11.LightManager.createSpotLightDebugVisualization T line).points
        = (gl.LightManager.createSpotLightDebugVisualization T line).points
          ++ ((gl.LightManager.createSpotLightDebugVisualization T line).points.head?).toList) := by
  refine ⟨⟨rfl, rfl, rfl, rfl, rfl, rfl⟩, ⟨?_, ?_, ?_⟩, ⟨?_, ?_⟩, ⟨?_, ?_, ?_⟩⟩
  · simp [dx11.LightManager.createDirectLightDebugVisualization]
  · simp [dx11.LightManager.createDirectLightDebugVisualization]
  · simp [gl.LightManager.createDirectLightDebugVisualization]
  · simp [dx11.LightManager.createOmniLightDebugVisualization, List.range_succ]
  · simp [gl.LightManager.createOmniLightDebugVisualization, List.range_succ]
  · simp [dx11.LightManager.createSpotLightDebugVisualization, List.range_succ]
  · simp [gl.LightManager.createSpotLightDebugVisualization, List.range_succ]
  · simp [dx11.LightManager.createSpotLightDebugVisualization,
      gl.LightManager.createSpotLightDebugVisualization, List.range_succ]

end DebugGeometry

/-! ## Theorems: `renderDebugVisualization` -/

section DebugDraws
variable {F Q M : Type}

theorem dx11_renderStep (ops : MatrixOps F Q M) (use : ℕ → Bool) (viewProjection : M)
    (st : dx11.LightManager F Q M × List (dx11.DrawCommand F Q M)) (k : ℕ)
    (h : k < st.1.m_lightSources.length) :
    (dx11.LightManager.renderDebugVisualizationStep ops use viewProjection st k).1.m_lightSources
        = st.1.m_lightSources ∧
      (dx11.LightManager.renderDebugVisualizationStep ops use viewProjection st
          k).1.m_arrowDataBuffer.isSome = st.1.m_arrowDataBuffer.isSome ∧
      (dx11.LightManager.renderDebugVisualizationStep ops use viewProjection st k).2
        = st.2 ++ dx11.specLightDraws ops use viewProjection st.1.m_arrowDataBuffer.isSome k
            (st.1.m_lightSources.get ⟨k, h⟩) := by
  obtain ⟨m, draws⟩ := st
  obtain ⟨lights, buffer⟩ := m
  simp only [dx11.LightManager.renderDebugVisualizationStep, dx11.specLightDraws] at h ⊢
  rw [dif_pos h]
  cases hty : (lights.get ⟨k, h⟩).lightSource.type <;> cases buffer <;> cases hu : use k <;>
    simp [hty, hu]

theorem gl_renderStep (ops : MatrixOps F Q M) (use : ℕ → Bool) (viewProjection : M)
    (st : gl.LightManager F Q × List (gl.DrawCommand F Q M)) (k : ℕ)
    (h : k < st.1.m_lightSources.length) :
    (gl.LightManager.renderDebugVisualizationStep ops use viewProjection st k).1 = st.1 ∧
      (gl.LightManager.renderDebugVisualizationStep ops use viewProjection st k).2
        = st.2 ++ gl.specLightDraws ops use viewProjection k
            (st.1.m_lightSources.get ⟨k, h⟩) := by
  obtain ⟨m, draws⟩ := st
  obtain ⟨lights⟩ := m
  simp only [gl.LightManager.renderDebugVisualizationStep, gl.specLightDraws] at h ⊢
  rw [dif_pos h]
  cases hty : (lights.get ⟨k, h⟩).lightSource.type <;> cases hu : use k <;>
    simp [hty, hu]

theorem take_succ_enum_flatMap {α β : Type} (l : List α) (f : ℕ × α → List β) (k : ℕ)
    (h : k < l.length) :
    (l.take (k + 1)).enum.flatMap f = (l.take k).enum.flatMap f ++ f (k, l.get ⟨k, h⟩) := by
  rw [List.take_succ, List.getElem?_eq_getElem h, List.enum_append]
  simp [List.enumFrom_singleton, Nat.min_eq_left (Nat.le_of_lt h)]

theorem dx11_render_prefix (ops : MatrixOps F Q M) (use : ℕ → Bool) (viewProjection : M)
    (m : dx11.LightManager F Q M) (k : ℕ) (hk : k ≤ m.m_lightSources.length) :
    ((List.range k).foldl (dx11.LightManager.renderDebugVisualizationStep ops use viewProjection)
        (m, [])).1.m_lightSources = m.m_lightSources ∧
      ((List.range k).foldl
        (dx11.LightManager.renderDebugVisualizationStep ops use viewProjection)
        (m, [])).1.m_arrowDataBuffer.isSome = m.m_arrowDataBuffer.isSome ∧
      ((List.range k).foldl
        (dx11.LightManager.renderDebugVisualizationStep ops use viewProjection) (m, [])).2
        = (m.m_lightSources.take k).enum.flatMap (fun p =>
            dx11.specLightDraws ops use viewProjection m.m_arrowDataBuffer.isSome p.1 p.2) := by
  induction k with
  | zero => simp
  | succ k ih =>
    obtain ⟨h1, h2, h3⟩ := ih (Nat.le_of_succ_le hk)
    rw [List.range_succ, List.foldl_append, List.foldl_cons, List.foldl_nil]
    generalize (List.range k).foldl
      (dx11.LightManager.renderDebugVisualizationStep ops use viewProjection) (m, []) = st
      at h1 h2 h3 ⊢
    have hlt : k < st.1.m_lightSources.length := by rw [h1]; exact hk
    obtain ⟨s1, s2, s3⟩ := dx11_renderStep ops use viewProjection st k hlt
    refine ⟨s1.trans h1, s2.trans h2, ?_⟩
    rw [s3, h3, h2, take_succ_enum_flatMap _ _ k hk]
    congr 2
    simp [h1]

theorem gl_render_prefix (ops : MatrixOps F Q M) (use : ℕ → Bool) (viewProjection : M)
    (m : gl.LightManager F Q) (k : ℕ) (hk : k ≤ m.m_lightSources.length) :
    ((List.range k).foldl (gl.LightManager.renderDebugVisualizationStep ops use viewProjection)
        (m, [])).1 = m ∧
      ((List.range k).foldl
        (gl.LightManager.renderDebugVisualizationStep ops use viewProjection) (m, [])).2
        = (m.m_lightSources.take k).enum.flatMap (fun p =>
            gl.specLightDraws ops use viewProjection p.1 p.2) := by
  induction k with
  | zero => simp
  | succ k ih =>
    obtain ⟨h1, h3⟩ := ih (Nat.le_of_succ_le hk)
    rw [List.range_succ, List.foldl_append, List.foldl_cons, List.foldl_nil]
    generalize (List.range k).foldl
      (gl.LightManager.renderDebugVisualizationStep ops use viewProjection) (m, []) = st
      at h1 h3 ⊢
    have hlt : k < st.1.m_lightSources.length := by rw [h1]; exact hk
    obtain ⟨s1, s3⟩ := gl_renderStep ops use viewProjection st k hlt
    refine ⟨s1.trans h1, ?_⟩
    rw [s3, h3, take_succ_enum_flatMap _ _ k hk]
    congr 2
    simp [h1]

/-- C10: with the emitted draws as a command list, `renderDebugVisualization` emits, for
the lights in insertion order (index `i`, entry `l`), the draws `specLightDraws i l`: one
wireframe draw tinted with the diffuse colour, with the translation-only model transform
for Omni and orientation plus translation for Spot/Direct, followed by one single-point
arrow draw exactly when the light is Spot or Direct and `use()` succeeds for it (and, in
dx11, the arrow constant buffer is not null, which after `init` means that
`initDefaultConstant` succeeded).  For an Omni light the draws are the wireframe draw
alone, and the light collection after the call is the one before it. -/
theorem renderDebugVisualization_draws (ops : MatrixOps F Q M) (use : ℕ → Bool)
    (viewProjection : M) (md : dx11.LightManager F Q M) (mg : gl.LightManager F Q)
    (initDefaultConstant : Bool) :
    ((dx11.LightManager.renderDebugVisualization ops use viewProjection md).2
        = md.m_lightSources.enum.flatMap (fun p =>
            dx11.specLightDraws ops use viewProjection md.m_arrowDataBuffer.isSome p.1 p.2) ∧
      (dx11.LightManager.renderDebugVisualization ops use viewProjection md).1.m_lightSources
        = md.m_lightSources ∧
      (dx11.LightManager.init initDefaultConstant md).m_arrowDataBuffer.isSome
        = initDefaultConstant ∧
      (dx11.LightManager.init initDefaultConstant md).m_lightSources = md.m_lightSources ∧
      ∀ (bufferOk : Bool) (i : ℕ) (l : LightData F Q),
        dx11.specLightDraws ops use viewProjection bufferOk i
            { l with lightSource := { l.lightSource with type := LightType.OmniLight } }
          = [dx11.DrawCommand.renderWithStandardGpuProgram l.lineDebugVis
              (ops.mul (ops.set_translation ops.matrix44 l.lightSource.position)
                viewProjection) l.lightSource.diffuseColor]) ∧
    ((gl.LightManager.renderDebugVisualization ops use viewProjection mg).2
        = mg.m_lightSources.enum.flatMap (fun p =>
            gl.specLightDraws ops use viewProjection p.1 p.2) ∧
      (gl.LightManager.renderDebugVisualization ops use viewProjection mg).1 = mg ∧
      ∀ (i : ℕ) (l : LightData F Q),
        gl.specLightDraws ops use viewProjection i
            { l with lightSource := { l.lightSource with type := LightType.OmniLight } }
          = [gl.DrawCommand.renderWithStandardGpuProgram l.lineDebugVis
              (ops.mul (ops.set_translation ops.matrix44 l.lightSource.position)
                viewProjection) l.lightSource.diffuseColor false]) := by
  obtain ⟨d1, _, d3⟩ := dx11_render_prefix ops use viewProjection md md.m_lightSources.length
    (Nat.le_refl _)
  obtain ⟨g1, g3⟩ := gl_render_prefix ops use viewProjection mg mg.m_lightSources.length
    (Nat.le_refl _)
  rw [List.take_length] at d3 g3
  refine ⟨⟨d3, d1, ?_, ?_, ?_⟩, ⟨g3, g1, ?_⟩⟩
  · cases initDefaultConstant <;> simp [dx11.LightManager.init]
  · cases initDefaultConstant <;> simp [dx11.LightManager.init]
  · intro bufferOk i l
    simp [dx11.specLightDraws]
  · intro i l
    simp [gl.specLightDraws]

end DebugDraws

/-! ## Theorems: direct lights, no lights, spot lights -/

namespace pscommon
section
variable {F : Type} [LinearOrderedField F]

theorem lightDirAndPower_direct (I : Intrinsics F) (worldPos : F) (light : LightData F)
    (h0 : light.lightType ≠ 0) (h1 : light.lightType ≠ 1) :
    lightDirAndPower I worldPos light = (light.direction, 1) := by
  simp [lightDirAndPower, h0, h1]

/-- C11: for a light that `blinn` classifies as Direct (lightType neither 0 nor 1),
`lightDir` is `light.direction` as it is and the attenuation is exactly 1, for every world
position; the loop body adds `max(0, dot(direction, normal)) * diffuseColor` to the diffuse
sum; and with this light alone the diffuse sum is that value for every pixel world
position, whatever the light's position and falloff are. -/
theorem blinn_direct_light (I : Intrinsics F) (viewPosition : float3 F)
    (lightsData : ℕ → LightData F) (normal : float3 F) (worldPos : F) (i : ℕ)
    (h0 : (lightsData i).lightType ≠ 0) (h1 : (lightsData i).lightType ≠ 1) :
    lightDirAndPower I worldPos (lightsData i) = ((lightsData i).direction, 1) ∧
    (∀ (viewDir : float3 F) (specPower : F) (acc : BlinnOut F),
      (blinnStep I lightsData normal worldPos viewDir specPower acc i).diffColor =
        acc.diffColor
          + splat (max 0 (dot (lightsData i).direction normal)) * (lightsData i).diffuseColor) ∧
    (∀ (worldPos' : F) (position' : float3 F) (falloff' : F),
      (blinn I viewPosition 1
        (fun _ => { lightsData i with position := position', falloff := falloff' })
        normal worldPos').diffColor =
        splat (max 0 (dot (lightsData i).direction normal)) * (lightsData i).diffuseColor) := by
  have hd := lightDirAndPower_direct I worldPos (lightsData i) h0 h1
  refine ⟨hd, ?_, ?_⟩
  · intro viewDir specPower acc
    simp only [blinnStep, hd, float3_add, float3_mul, splat]
    norm_num [mul_comm]
  · intro worldPos' position' falloff'
    rw [blinn_eq_sums]
    simp [lightDirOf, lightDirAndPower, h0, h1, float3_mul, splat, mul_comm]

/-- C11, for a direct light (lightType 2) with direction (0, 0, 2), which is not a unit
vector: at the world position 7 the light direction is (0, 0, 2) and the attenuation 1. -/
theorem blinn_direct_light_witness :
    (({ sampleOmni ℝ with lightType := 2, direction := ⟨0, 0, 2⟩ } : LightData ℝ).lightType ≠ 0 ∧
      ({ sampleOmni ℝ with lightType := 2, direction := ⟨0, 0, 2⟩ } : LightData ℝ).lightType
        ≠ 1) ∧
    lightDirAndPower ⟨Real.sqrt, fun x y => x ^ y⟩ 7
      ({ sampleOmni ℝ with lightType := 2, direction := ⟨0, 0, 2⟩ } : LightData ℝ)
      = (⟨0, 0, 2⟩, 1) :=
  ⟨⟨by decide, by decide⟩,
    (blinn_direct_light ⟨Real.sqrt, fun x y => x ^ y⟩ ⟨0, 0, -1⟩
      (fun _ => { sampleOmni ℝ with lightType := 2, direction := ⟨0, 0, 2⟩ }) ⟨0, 0, 1⟩ 7 0
      (by decide) (by decide)).1⟩

/-- C12: with `lightsCount = 0`, `blinn` returns zero diffuse, specular and ambient sums
and `computeColor` returns black (0,0,0), for every texture content and every pixel
input. -/
theorem no_lights_black (I : Intrinsics F) (viewPosition : float3 F)
    (lightsData : ℕ → LightData F) (normal : float3 F) (worldPos : F)
    (diffuseMap normalMap specularMap : float2 F → float3 F) (input : VS_OUTPUT_GBUF F) :
    blinn I viewPosition 0 lightsData normal worldPos
      = ⟨⟨0, 0, 0⟩, ⟨0, 0, 0⟩, ⟨0, 0, 0⟩⟩ ∧
    computeColor I viewPosition 0 lightsData diffuseMap normalMap specularMap input
      = ⟨0, 0, 0⟩ := by
  constructor
  · simp [blinn]
  · simp [computeColor, blinn, float3_add, float3_mul, saturate3, saturate]

theorem lightDirAndPower_spot_omni (I : Intrinsics F) (worldPos : F) (a b : LightData F)
    (ha : a.lightType = 0 ∨ a.lightType = 1) (hb : b.lightType = 0 ∨ b.lightType = 1)
    (hp : a.position = b.position) (hf : a.falloff = b.falloff) :
    lightDirAndPower I worldPos a = lightDirAndPower I worldPos b := by
  rcases ha with ha | ha <;> rcases hb with hb | hb <;>
    simp [lightDirAndPower, ha, hb, hp, hf]

/-- C14: spot lights are shaded exactly like omni lights.  If, for every index below
`lightsCount`, the two light arrays hold either the same record, or two records whose
lightType is 0 or 1 (possibly 0 in one array and 1 in the other) and that agree in
position, falloff and the three colours (the angle and the direction may differ), then
`blinn` returns the same diffuse, specular and ambient sums for every pixel. -/
theorem blinn_spot_like_omni (I : Intrinsics F) (viewPosition : float3 F) (lightsCount : ℕ)
    (lightsData lightsData' : ℕ → LightData F) (normal : float3 F) (worldPos : F)
    (h : ∀ i, i < lightsCount → lightsData i = lightsData' i ∨
      (((lightsData i).lightType = 0 ∨ (lightsData i).lightType = 1) ∧
        ((lightsData' i).lightType = 0 ∨ (lightsData' i).lightType = 1) ∧
        (lightsData i).position = (lightsData' i).position ∧
        (lightsData i).falloff = (lightsData' i).falloff ∧
        (lightsData i).diffuseColor = (lightsData' i).diffuseColor ∧
        (lightsData i).ambientColor = (lightsData' i).ambientColor ∧
        (lightsData i).specularColor = (lightsData' i).specularColor)) :
    blinn I viewPosition lightsCount lightsData normal worldPos
      = blinn I viewPosition lightsCount lightsData' normal worldPos := by
  have key : ∀ i, i < lightsCount →
      lightDirOf I lightsData worldPos i = lightDirOf I lightsData' worldPos i ∧
      (lightsData i).diffuseColor = (lightsData' i).diffuseColor ∧
      (lightsData i).ambientColor = (lightsData' i).ambientColor ∧
      (lightsData i).specularColor = (lightsData' i).specularColor := by
    intro i hi
    rcases h i hi with he | ⟨ha, hb, hp, hf, hd, hamb, hs⟩
    · simp only [lightDirOf, he, and_self]
    · exact ⟨by simp only [lightDirOf, lightDirAndPower_spot_omni I worldPos _ _ ha hb hp hf],
        hd, hamb, hs⟩
  rw [blinn_eq_sums, blinn_eq_sums]
  simp only [BlinnOut.mk.injEq, vector3.mk.injEq]
  refine ⟨⟨?_, ?_, ?_⟩, ⟨?_, ?_, ?_⟩, ⟨?_, ?_, ?_⟩⟩ <;>
  · apply Finset.sum_congr rfl
    intro i hi
    obtain ⟨k1, k2, k3, k4⟩ := key i (Finset.mem_range.mp hi)
    simp only [halfVectorOf, k1, k2, k3, k4]

/-- C14, for the omni light at distance 5 and the same light turned into a spot light with
another cone angle and direction. -/
theorem blinn_spot_like_omni_witness :
    ((sampleOmni ℝ).lightType = 0 ∧
      ({ sampleOmni ℝ with lightType := 1, angle := 30, direction := ⟨1, 0, 0⟩ } :
        LightData ℝ).lightType = 1) ∧
    blinn ⟨Real.sqrt, fun x y => x ^ y⟩ ⟨0, 0, -1⟩ 1 (fun _ => sampleOmni ℝ) ⟨0, 0, 1⟩ 0
      = blinn ⟨Real.sqrt, fun x y => x ^ y⟩ ⟨0, 0, -1⟩ 1
          (fun _ => { sampleOmni ℝ with lightType := 1, angle := 30, direction := ⟨1, 0, 0⟩ })
          ⟨0, 0, 1⟩ 0 :=
  ⟨⟨rfl, rfl⟩,
    blinn_spot_like_omni ⟨Real.sqrt, fun x y => x ^ y⟩ ⟨0, 0, -1⟩ 1 (fun _ => sampleOmni ℝ)
      (fun _ => { sampleOmni ℝ with lightType := 1, angle := 30, direction := ⟨1, 0, 0⟩ })
      ⟨0, 0, 1⟩ 0
      (fun _ _ => Or.inr ⟨Or.inl rfl, Or.inr rfl, rfl, rfl, rfl, rfl, rfl⟩)⟩

end
end pscommon

/-! ## Theorems: the omni proxy -/

section OmniProxy

theorem foldl_append_singleton {α β : Type} (f : α → β) (l : List α) (init : List β) :
    l.foldl (fun pts i => pts ++ [f i]) init = init ++ l.map f := by
  induction l generalizing init with
  | nil => simp
  | cons a l ih => simp [ih]

theorem dx11_omni_points {F : Type} [LinearOrderedField F] (T : Trig F) (line : Line3D F) :
    (dx11.LightManager.createOmniLightDebugVisualization T line).points =
      (List.range 13).map (fun i : ℕ =>
          (⟨T.n_cos (2 * T.N_PI * i / 12), T.n_sin (2 * T.N_PI * i / 12), 0⟩ : vector3 F))
        ++ (List.range 13).map (fun i : ℕ =>
          (⟨T.n_cos (2 * T.N_PI * i / 12), 0, T.n_sin (2 * T.N_PI * i / 12)⟩ : vector3 F))
        ++ (List.range 4).map (fun i : ℕ =>
          (⟨T.n_cos (2 * T.N_PI * i / 12), 0, T.n_sin (2 * T.N_PI * i / 12)⟩ : vector3 F))
        ++ (List.range 13).map (fun i : ℕ =>
          (⟨0, T.n_sin (2 * T.N_PI * i / 12), T.n_cos (2 * T.N_PI * i / 12)⟩ : vector3 F)) := by
  have h2 : (2.0 : F) = 2 := by norm_num
  have h12 : (12.0 : F) = 12 := by norm_num
  simp only [dx11.LightManager.createOmniLightDebugVisualization, foldl_append_singleton,
    List.nil_append, h2, h12]

theorem gl_omni_points_eq_dx11 {F : Type} [LinearOrderedField F] (T : Trig F)
    (line : Line3D F) :
    (gl.LightManager.createOmniLightDebugVisualization T line).points
      = (dx11.LightManager.createOmniLightDebugVisualization T line).points := rfl

theorem map_const_one {α : Type} (f : α → ℝ) (l : List α) (h : ∀ a, f a = 1) :
    l.map f = List.replicate l.length 1 := by
  induction l with
  | nil => rfl
  | cons a l ih => simp [ih, h a, List.replicate_succ]

theorem real_cos_sin_circle (t : ℝ) :
    Real.cos t * Real.cos t + Real.sin t * Real.sin t = 1 := by
  rw [← sq, ← sq, Real.cos_sq_add_sin_sq]

theorem real_sin_cos_circle (t : ℝ) :
    Real.sin t * Real.sin t + Real.cos t * Real.cos t = 1 := by
  rw [← sq, ← sq, Real.sin_sq_add_cos_sq]

/-- C13: in both variants the omni proxy point list is, in order, the 13 samples
`(cos t_i, sin t_i, 0)`, the 13 samples `(cos t_i, 0, sin t_i)`, the 4 samples
`(cos t_i, 0, sin t_i)` for `i = 0..3` and the 13 samples `(0, sin t_i, cos t_i)`, with
`t_i = 2*pi*i/12`; over the reals each of the 43 points is at distance exactly 1 from the
origin, and each full circle is closed: the points at positions 12, 25 and 42 (the samples
`i = 12`) are the points at positions 0, 13 and 30 (the samples `i = 0`). -/
theorem omni_proxy_unit_circles (line : Line3D ℝ) :
    (dx11.LightManager.createOmniLightDebugVisualization
        ⟨Real.pi, Real.cos, Real.sin⟩ line).points =
      (List.range 13).map (fun i : ℕ =>
          (⟨Real.cos (2 * Real.pi * i / 12), Real.sin (2 * Real.pi * i / 12), 0⟩ : vector3 ℝ))
        ++ (List.range 13).map (fun i : ℕ =>
          (⟨Real.cos (2 * Real.pi * i / 12), 0, Real.sin (2 * Real.pi * i / 12)⟩ : vector3 ℝ))
        ++ (List.range 4).map (fun i : ℕ =>
          (⟨Real.cos (2 * Real.pi * i / 12), 0, Real.sin (2 * Real.pi * i / 12)⟩ : vector3 ℝ))
        ++ (List.range 13).map (fun i : ℕ =>
          (⟨0, Real.sin (2 * Real.pi * i / 12), Real.cos (2 * Real.pi * i / 12)⟩ : vector3 ℝ)) ∧
    (gl.LightManager.createOmniLightDebugVisualization
        ⟨Real.pi, Real.cos, Real.sin⟩ line).points =
      (dx11.LightManager.createOmniLightDebugVisualization
        ⟨Real.pi, Real.cos, Real.sin⟩ line).points ∧
    (dx11.LightManager.createOmniLightDebugVisualization
        ⟨Real.pi, Real.cos, Real.sin⟩ line).points.map
        (fun p => Real.sqrt (p.x * p.x + p.y * p.y + p.z * p.z)) = List.replicate 43 1 ∧
    ((dx11.LightManager.createOmniLightDebugVisualization
          ⟨Real.pi, Real.cos, Real.sin⟩ line).points[12]? =
        (dx11.LightManager.createOmniLightDebugVisualization
          ⟨Real.pi, Real.cos, Real.sin⟩ line).points[0]? ∧
      (dx11.LightManager.createOmniLightDebugVisualization
          ⟨Real.pi, Real.cos, Real.sin⟩ line).points[25]? =
        (dx11.LightManager.createOmniLightDebugVisualization
          ⟨Real.pi, Real.cos, Real.sin⟩ line).points[13]? ∧
      (dx11.LightManager.createOmniLightDebugVisualization
          ⟨Real.pi, Real.cos, Real.sin⟩ line).points[42]? =
        (dx11.LightManager.createOmniLightDebugVisualization
          ⟨Real.pi, Real.cos, Real.sin⟩ line).points[30]?) := by
  have hpts := dx11_omni_points (⟨Real.pi, Real.cos, Real.sin⟩ : Trig ℝ) line
  have hfull : Real.cos (2 * Real.pi * (12 : ℕ) / 12) = 1
      ∧ Real.sin (2 * Real.pi * (12 : ℕ) / 12) = 0 := by
    have : 2 * Real.pi * ((12 : ℕ) : ℝ) / 12 = 2 * Real.pi := by push_cast; ring
    rw [this]
    exact ⟨Real.cos_two_pi, Real.sin_two_pi⟩
  refine ⟨hpts, gl_omni_points_eq_dx11 _ line, ?_, ?_⟩
  · rw [hpts]
    simp only [List.map_append, List.map_map]
    rw [map_const_one _ _ (fun i => by simp [real_cos_sin_circle, real_sin_cos_circle]),
      map_const_one _ _ (fun i => by simp [real_cos_sin_circle, real_sin_cos_circle]),
      map_const_one _ _ (fun i => by simp [real_cos_sin_circle, real_sin_cos_circle]),
      map_const_one _ _ (fun i => by simp [real_cos_sin_circle, real_sin_cos_circle])]
    simp
  · rw [hpts]
    simp [List.range_succ, List.getElem?_append, List.getElem?_cons, hfull]

end OmniProxy

namespace pscommon
section HalfEven
variable {F : Type} [LinearOrderedField F]

theorem halfEven_choice_mono (m₁ m₂ : F) (f₁ f₂ : ℤ) (h : m₁ ≤ m₂) (hf : f₁ ≤ f₂) :
    (if m₁ - f₁ < 1 / 2 then f₁ else if 1 / 2 < m₁ - f₁ then f₁ + 1
      else if f₁ % 2 = 0 then f₁ else f₁ + 1) ≤
    (if m₂ - f₂ < 1 / 2 then f₂ else if 1 / 2 < m₂ - f₂ then f₂ + 1
      else if f₂ % 2 = 0 then f₂ else f₂ + 1) := by
  rcases hf.lt_or_eq with hlt | heq
  · split_ifs <;> omega
  · subst heq
    split_ifs <;> first | omega | (exfalso; linarith)

theorem scale_two_pow_23 (k : ℤ) :
    (((2 : ℤ) ^ 23 : ℤ) : F) * (2 : F) ^ (k - 23) = (2 : F) ^ k := by
  rw [zpow_sub₀ (by norm_num : (2 : F) ≠ 0)]
  push_cast
  field_simp
  ring

theorem scale_two_pow_24 (k : ℤ) :
    (((2 : ℤ) ^ 24 : ℤ) : F) * (2 : F) ^ (k - 23) = (2 : F) ^ (k + 1) := by
  rw [zpow_sub₀ (by norm_num : (2 : F) ≠ 0), zpow_add_one₀ (by norm_num : (2 : F) ≠ 0)]
  push_cast
  field_simp
  ring

end HalfEven

section Rounding
variable {F : Type} [LinearOrderedField F] [FloorRing F]

theorem int_log_two_eq (q : F) (k : ℤ) (hlo : (2 : F) ^ k ≤ q) (hhi : q < (2 : F) ^ (k + 1)) :
    Int.log 2 q = k := by
  have hpos : 0 < q := lt_of_lt_of_le (zpow_pos (by norm_num) k) hlo
  have h1 : k ≤ Int.log 2 q := by
    rw [← Int.zpow_le_iff_le_log (by norm_num) hpos]
    simpa using hlo
  have h2 : Int.log 2 q < k + 1 := by
    rw [← Int.lt_zpow_iff_log_lt (by norm_num) hpos]
    simpa using hhi
  omega

theorem roundHalfEven_eval (m : F) (f n : ℤ) (hf1 : (f : F) ≤ m) (hf2 : m < f + 1)
    (hn : (if m - f < 1 / 2 then f else if 1 / 2 < m - f then f + 1
      else if f % 2 = 0 then f else f + 1) = n) :
    roundHalfEven m = n := by
  have hfl : ⌊m⌋ = f := Int.floor_eq_iff.mpr ⟨hf1, hf2⟩
  simp only [roundHalfEven, hfl]
  exact hn

theorem binary32Round_eval (q : F) (k f n : ℤ) (hlo : (2 : F) ^ k ≤ q)
    (hhi : q < (2 : F) ^ (k + 1)) (hf1 : (f : F) ≤ q / (2 : F) ^ (k - 23))
    (hf2 : q / (2 : F) ^ (k - 23) < f + 1)
    (hn : (if q / (2 : F) ^ (k - 23) - f < 1 / 2 then f
      else if 1 / 2 < q / (2 : F) ^ (k - 23) - f then f + 1
      else if f % 2 = 0 then f else f + 1) = n) :
    binary32Round q = n * (2 : F) ^ (k - 23) := by
  have hpos : 0 < q := lt_of_lt_of_le (zpow_pos (by norm_num) k) hlo
  have hlog : Int.log 2 |q| = k := by
    rw [abs_of_pos hpos]
    exact int_log_two_eq q k hlo hhi
  simp only [binary32Round, if_neg hpos.ne', hlog]
  rw [roundHalfEven_eval _ f n hf1 hf2 hn]

theorem binary32Round_zero : binary32Round (0 : F) = 0 := by
  simp [binary32Round]

/-- The float literal `0.3f` is 5033165 / 2^24. -/
theorem binary32Round_three_tenths : binary32Round (0.3 : F) = 5033165 / 16777216 := by
  rw [binary32Round_eval (0.3 : F) (-2) 10066329 10066330 (by norm_num)
    (by norm_num) (by norm_num) (by norm_num) (by norm_num)]
  norm_num

/-- The float `0.3f`, which is 5033165 / 2^24, rounds to itself. -/
theorem binary32Round_a1 : binary32Round (5033165 / 16777216 : F) = 5033165 / 16777216 := by
  rw [binary32Round_eval (5033165 / 16777216 : F) (-2) 10066330 10066330 (by norm_num)
    (by norm_num) (by norm_num) (by norm_num) (by norm_num)]
  norm_num

theorem binary32Round_a2 : binary32Round (5033165 / 8388608 : F) = 5033165 / 8388608 := by
  rw [binary32Round_eval (5033165 / 8388608 : F) (-1) 10066330 10066330 (by norm_num)
    (by norm_num) (by norm_num) (by norm_num) (by norm_num)]
  norm_num

theorem binary32Round_a3 : binary32Round (15099495 / 16777216 : F) = 15099495 / 16777216 := by
  rw [binary32Round_eval (15099495 / 16777216 : F) (-1) 15099495 15099495 (by norm_num)
    (by norm_num) (by norm_num) (by norm_num) (by norm_num)]
  norm_num

theorem binary32Round_a4 : binary32Round (5033165 / 4194304 : F) = 5033165 / 4194304 := by
  rw [binary32Round_eval (5033165 / 4194304 : F) 0 10066330 10066330 (by norm_num)
    (by norm_num) (by norm_num) (by norm_num) (by norm_num)]
  norm_num

/-- Five times `0.3f` is halfway between two floats and rounds to the even one, 1.5. -/
theorem binary32Round_a5 : binary32Round (25165825 / 16777216 : F) = 3 / 2 := by
  rw [binary32Round_eval (25165825 / 16777216 : F) 0 12582912 12582912 (by norm_num)
    (by norm_num) (by norm_num) (by norm_num) (by norm_num)]
  norm_num

/-- The sum `1.5 + 0.3f` is halfway between two floats and rounds to the even one, which
is one unit in the last place below six times `0.3f`. -/
theorem binary32Round_a6 : binary32Round (30198989 / 16777216 : F) = 7549747 / 4194304 := by
  rw [binary32Round_eval (30198989 / 16777216 : F) 0 15099494 15099494 (by norm_num)
    (by norm_num) (by norm_num) (by norm_num) (by norm_num)]
  norm_num

/-- The running float sum of six copies of `0.3f`. -/
theorem binary32_six_times :
    binary32Round (binary32Round (binary32Round (binary32Round (binary32Round
      (binary32Round ((0 : F) + 5033165 / 16777216) + 5033165 / 16777216)
      + 5033165 / 16777216) + 5033165 / 16777216) + 5033165 / 16777216)
      + 5033165 / 16777216) = 7549747 / 4194304 := by
  rw [show (0 : F) + 5033165 / 16777216 = 5033165 / 16777216 by norm_num, binary32Round_a1,
    show (5033165 / 16777216 : F) + 5033165 / 16777216 = 5033165 / 8388608 by norm_num,
    binary32Round_a2,
    show (5033165 / 8388608 : F) + 5033165 / 16777216 = 15099495 / 16777216 by norm_num,
    binary32Round_a3,
    show (15099495 / 16777216 : F) + 5033165 / 16777216 = 5033165 / 4194304 by norm_num,
    binary32Round_a4,
    show (5033165 / 4194304 : F) + 5033165 / 16777216 = 25165825 / 16777216 by norm_num,
    binary32Round_a5,
    show (3 / 2 : F) + 5033165 / 16777216 = 30198989 / 16777216 by norm_num,
    binary32Round_a6]

theorem roundHalfEven_mono {m₁ m₂ : F} (h : m₁ ≤ m₂) :
    roundHalfEven m₁ ≤ roundHalfEven m₂ :=
  halfEven_choice_mono m₁ m₂ ⌊m₁⌋ ⌊m₂⌋ h (Int.floor_mono h)

theorem roundHalfEven_intCast (n : ℤ) : roundHalfEven (n : F) = n := by
  simp [roundHalfEven]

theorem scaled_lower (q : F) (hq : 0 < q) :
    (((2 : ℤ) ^ 23 : ℤ) : F) ≤ q / (2 : F) ^ (Int.log 2 q - 23) := by
  have h := Int.zpow_log_le_self (b := 2) (r := q) (by norm_num) hq
  have h2 : (0 : F) < (2 : F) ^ (Int.log 2 q - 23) := zpow_pos (by norm_num) _
  rw [le_div_iff₀ h2, scale_two_pow_23]
  simpa using h

theorem scaled_upper (q : F) :
    q / (2 : F) ^ (Int.log 2 q - 23) ≤ (((2 : ℤ) ^ 24 : ℤ) : F) := by
  have h := (Int.lt_zpow_succ_log_self (b := 2) (by norm_num) q).le
  have h2 : (0 : F) < (2 : F) ^ (Int.log 2 q - 23) := zpow_pos (by norm_num) _
  rw [div_le_iff₀ h2, scale_two_pow_24]
  simpa using h

/-- A positive number rounds into the closure of its binade. -/
theorem binary32Round_pos_bounds (q : F) (hq : 0 < q) :
    (2 : F) ^ Int.log 2 q ≤ binary32Round q ∧ binary32Round q ≤ (2 : F) ^ (Int.log 2 q + 1) := by
  have h2 : (0 : F) < (2 : F) ^ (Int.log 2 q - 23) := zpow_pos (by norm_num) _
  have hlo := roundHalfEven_mono (scaled_lower q hq)
  have hhi := roundHalfEven_mono (scaled_upper q)
  rw [roundHalfEven_intCast] at hlo hhi
  have hlo' : (((2 : ℤ) ^ 23 : ℤ) : F)
      ≤ (roundHalfEven (q / (2 : F) ^ (Int.log 2 q - 23)) : F) := Int.cast_le.mpr hlo
  have hhi' : (roundHalfEven (q / (2 : F) ^ (Int.log 2 q - 23)) : F)
      ≤ (((2 : ℤ) ^ 24 : ℤ) : F) := Int.cast_le.mpr hhi
  simp only [binary32Round, if_neg hq.ne', abs_of_pos hq]
  constructor
  · rw [← scale_two_pow_23 (Int.log 2 q)]
    exact mul_le_mul_of_nonneg_right hlo' h2.le
  · rw [← scale_two_pow_24 (Int.log 2 q)]
    exact mul_le_mul_of_nonneg_right hhi' h2.le

/-- A negative number rounds into the closure of its (negative) binade. -/
theorem binary32Round_neg_bounds (q : F) (hq : q < 0) :
    -(2 : F) ^ (Int.log 2 (-q) + 1) ≤ binary32Round q ∧
      binary32Round q ≤ -(2 : F) ^ Int.log 2 (-q) := by
  have hq' : 0 < -q := neg_pos.mpr hq
  have h2 : (0 : F) < (2 : F) ^ (Int.log 2 (-q) - 23) := zpow_pos (by norm_num) _
  have e1 : q / (2 : F) ^ (Int.log 2 (-q) - 23) = -(-q / (2 : F) ^ (Int.log 2 (-q) - 23)) := by
    ring
  have hlo : ((-(2 : ℤ) ^ 24 : ℤ) : F) ≤ q / (2 : F) ^ (Int.log 2 (-q) - 23) := by
    rw [e1]
    push_cast
    have := scaled_upper (-q)
    push_cast at this
    linarith
  have hhi : q / (2 : F) ^ (Int.log 2 (-q) - 23) ≤ ((-(2 : ℤ) ^ 23 : ℤ) : F) := by
    rw [e1]
    push_cast
    have := scaled_lower (-q) hq'
    push_cast at this
    linarith
  have hlo' := roundHalfEven_mono hlo
  have hhi' := roundHalfEven_mono hhi
  rw [roundHalfEven_intCast] at hlo' hhi'
  have hlo'' : ((-(2 : ℤ) ^ 24 : ℤ) : F)
      ≤ (roundHalfEven (q / (2 : F) ^ (Int.log 2 (-q) - 23)) : F) := Int.cast_le.mpr hlo'
  have hhi'' : (roundHalfEven (q / (2 : F) ^ (Int.log 2 (-q) - 23)) : F)
      ≤ ((-(2 : ℤ) ^ 23 : ℤ) : F) := Int.cast_le.mpr hhi'
  simp only [binary32Round, if_neg hq.ne, abs_of_neg hq]
  constructor
  · have := mul_le_mul_of_nonneg_right hlo'' h2.le
    rw [← scale_two_pow_24 (Int.log 2 (-q))]
    push_cast at this ⊢
    linarith
  · have := mul_le_mul_of_nonneg_right hhi'' h2.le
    rw [← scale_two_pow_23 (Int.log 2 (-q))]
    push_cast at this ⊢
    linarith

/-- The binary32 rounding is monotone. -/
theorem binary32Round_mono : Monotone (binary32Round : F → F) := by
  intro x y hxy
  have two_pos : ∀ k : ℤ, (0 : F) < (2 : F) ^ k := fun k => zpow_pos (by norm_num) k
  rcases lt_trichotomy x 0 with hx | hx | hx
  · rcases lt_trichotomy y 0 with hy | hy | hy
    · -- both negative
      have hlog : Int.log 2 (-y) ≤ Int.log 2 (-x) :=
        Int.log_mono_right (neg_pos.mpr hy) (neg_le_neg hxy)
      rcases hlog.lt_or_eq with hlt | heq
      · have h1 := (binary32Round_neg_bounds x hx).2
        have h2 := (binary32Round_neg_bounds y hy).1
        have h3 : (2 : F) ^ (Int.log 2 (-y) + 1) ≤ (2 : F) ^ Int.log 2 (-x) :=
          zpow_le_zpow_right₀ (by norm_num) (by omega)
        linarith
      · simp only [binary32Round, if_neg hx.ne, if_neg hy.ne, abs_of_neg hx, abs_of_neg hy,
          heq]
        apply mul_le_mul_of_nonneg_right _ (two_pos _).le
        exact Int.cast_le.mpr (roundHalfEven_mono
          (div_le_div_of_nonneg_right hxy (two_pos _).le))
    · rw [hy, binary32Round_zero]
      have := (binary32Round_neg_bounds x hx).2
      linarith [two_pos (Int.log 2 (-x))]
    · have h1 := (binary32Round_neg_bounds x hx).2
      have h2 := (binary32Round_pos_bounds y hy).1
      linarith [two_pos (Int.log 2 (-x)), two_pos (Int.log 2 y)]
  · rw [hx, binary32Round_zero]
    rcases (hx ▸ hxy : (0 : F) ≤ y).lt_or_eq with hy | hy
    · have := (binary32Round_pos_bounds y hy).1
      linarith [two_pos (Int.log 2 y)]
    · rw [← hy, binary32Round_zero]
  · have hy : 0 < y := lt_of_lt_of_le hx hxy
    have hlog : Int.log 2 x ≤ Int.log 2 y := Int.log_mono_right hx hxy
    rcases hlog.lt_or_eq with hlt | heq
    · have h1 := (binary32Round_pos_bounds x hx).2
      have h2 := (binary32Round_pos_bounds y hy).1
      have h3 : (2 : F) ^ (Int.log 2 x + 1) ≤ (2 : F) ^ Int.log 2 y :=
        zpow_le_zpow_right₀ (by norm_num) (by omega)
      linarith
    · simp only [binary32Round, if_neg hx.ne', if_neg hy.ne', abs_of_pos hx, abs_of_pos hy,
        heq]
      apply mul_le_mul_of_nonneg_right _ (two_pos _).le
      exact Int.cast_le.mpr (roundHalfEven_mono
        (div_le_div_of_nonneg_right hxy (two_pos _).le))

theorem binary32Round_one : binary32Round (1 : F) = 1 := by
  rw [binary32Round_eval (1 : F) 0 8388608 8388608 (by norm_num)
    (by norm_num) (by norm_num) (by norm_num) (by norm_num)]
  norm_num

theorem binary32Round_ten : binary32Round (10 : F) = 10 := by
  rw [binary32Round_eval (10 : F) 3 10485760 10485760 (by norm_num)
    (by norm_num) (by norm_num) (by norm_num) (by norm_num)]
  norm_num

/-- The float literal `1e-7` is 14073749 / 2^47. -/
theorem binary32Round_eps : binary32Round (1e-7 : F) = 14073749 / 140737488355328 := by
  rw [binary32Round_eval (1e-7 : F) (-24) 14073748 14073749 (by norm_num)
    (by norm_num) (by norm_num) (by norm_num) (by norm_num)]
  norm_num

/-- In binary32, `10 + 1e-7` is 10: the addend is absorbed. -/
theorem binary32Round_ten_add_eps :
    binary32Round ((10 : F) + binary32Round 1e-7) = 10 := by
  rw [binary32Round_eps, binary32Round_eval ((10 : F) + 14073749 / 140737488355328) 3
    10485760 10485760 (by norm_num) (by norm_num) (by norm_num) (by norm_num) (by norm_num)]
  norm_num

theorem binary32Round_two_eps :
    binary32Round (14073749 / 70368744177664 : F) = 14073749 / 70368744177664 := by
  rw [binary32Round_eval (14073749 / 70368744177664 : F) (-23) 14073749 14073749
    (by norm_num) (by norm_num) (by norm_num) (by norm_num) (by norm_num)]
  norm_num

theorem binary32Round_half : binary32Round (1 / 2 : F) = 1 / 2 := by
  rw [binary32Round_eval (1 / 2 : F) (-1) 8388608 8388608 (by norm_num)
    (by norm_num) (by norm_num) (by norm_num) (by norm_num)]
  norm_num

theorem binary32Round_quarter : binary32Round (1 / 4 : F) = 1 / 4 := by
  rw [binary32Round_eval (1 / 4 : F) (-2) 8388608 8388608 (by norm_num)
    (by norm_num) (by norm_num) (by norm_num) (by norm_num)]
  norm_num

/-- In binary32 arithmetic, with falloff and dist both the float `1e-7`, the attenuation
is 1/4, as it is without rounding; with falloff and dist both 10 it is 0. -/
theorem lightPowerR_binary32_at_falloff :
    lightPowerR binary32Round (14073749 / 140737488355328 : F) (14073749 / 140737488355328)
      = 1 / 4 ∧
    lightPowerR binary32Round (10 : F) 10 = 0 := by
  constructor
  · simp only [lightPowerR]
    rw [binary32Round_eps,
      show (14073749 / 140737488355328 : F) + 14073749 / 140737488355328
        = 14073749 / 70368744177664 by norm_num,
      binary32Round_two_eps,
      show (14073749 / 140737488355328 : F) / (14073749 / 70368744177664) = 1 / 2 by norm_num,
      binary32Round_half,
      show (1.0 : F) - saturate (1 / 2) = 1 / 2 by norm_num [saturate],
      binary32Round_half, show (1 / 2 : F) * (1 / 2) = 1 / 4 by norm_num,
      binary32Round_quarter]
  · simp only [lightPowerR]
    rw [binary32Round_ten_add_eps, show (10 : F) / 10 = 1 by norm_num, binary32Round_one,
      show (1.0 : F) - saturate 1 = 0 by norm_num [saturate], binary32Round_zero,
      show (0 : F) * 0 = 0 by norm_num, binary32Round_zero]

end Rounding

section AmbientR
variable {F : Type} [LinearOrderedField F]

theorem foldl_blinnStepR_ambColor (M : FloatModel F) (lightsData : ℕ → LightData F)
    (normal : float3 F) (worldPos : F) (viewDir : float3 F) (specPower : F) (l : List ℕ)
    (init : BlinnOut F) :
    (l.foldl (blinnStepR M lightsData normal worldPos viewDir specPower) init).ambColor =
      l.foldl (fun acc i => addR M acc (lightsData i).ambientColor) init.ambColor := by
  induction l generalizing init with
  | nil => rfl
  | cons i l ih => simp only [List.foldl_cons, ih, blinnStepR]

theorem blinnR_ambColor (M : FloatModel F) (viewPosition : float3 F) (lightsCount : ℕ)
    (lightsData : ℕ → LightData F) (normal : float3 F) (worldPos : F) :
    (blinnR M viewPosition lightsCount lightsData normal worldPos).ambColor =
      (List.range lightsCount).foldl (fun acc i => addR M acc (lightsData i).ambientColor)
        ⟨0, 0, 0⟩ := by
  simp only [blinnR, foldl_blinnStepR_ambColor]

theorem ambient_fold_congr (M M' : FloatModel F) (hr : M'.rnd = M.rnd) (n : ℕ)
    (lightsData lightsData' : ℕ → LightData F)
    (h : ∀ i, i < n → (lightsData' i).ambientColor = (lightsData i).ambientColor) :
    (List.range n).foldl (fun acc i => addR M' acc (lightsData' i).ambientColor) ⟨0, 0, 0⟩ =
      (List.range n).foldl (fun acc i => addR M acc (lightsData i).ambientColor) ⟨0, 0, 0⟩ := by
  induction n with
  | zero => rfl
  | succ n ih =>
    simp only [List.range_succ, List.foldl_append, List.foldl_cons, List.foldl_nil]
    rw [ih (fun i hi => h i (Nat.lt_succ_of_lt hi)), h n (Nat.lt_succ_self n)]
    simp only [addR, hr]

theorem ambient_fold_equal_colors (M : FloatModel F) (n : ℕ) (lightsData : ℕ → LightData F)
    (a : float3 F) (h : ∀ i, i < n → (lightsData i).ambientColor = a)
    (hrep : ∀ j : ℕ, 1 ≤ j → j ≤ n →
      M.rnd (j * a.x) = j * a.x ∧ M.rnd (j * a.y) = j * a.y ∧ M.rnd (j * a.z) = j * a.z) :
    (List.range n).foldl (fun acc i => addR M acc (lightsData i).ambientColor) ⟨0, 0, 0⟩ =
      ⟨n * a.x, n * a.y, n * a.z⟩ := by
  induction n with
  | zero => simp
  | succ n ih =>
    simp only [List.range_succ, List.foldl_append, List.foldl_cons, List.foldl_nil]
    rw [ih (fun i hi => h i (Nat.lt_succ_of_lt hi))
      (fun j h1 hj => hrep j h1 (Nat.le_succ_of_le hj)), h n (Nat.lt_succ_self n)]
    obtain ⟨hx, hy, hz⟩ := hrep (n + 1) (Nat.succ_le_succ (Nat.zero_le n)) (Nat.le_refl _)
    simp only [addR, vector3.mk.injEq]
    refine ⟨?_, ?_, ?_⟩
    · rw [show (n : F) * a.x + a.x = ((n + 1 : ℕ) : F) * a.x by push_cast; ring, hx]
    · rw [show (n : F) * a.y + a.y = ((n + 1 : ℕ) : F) * a.y by push_cast; ring, hy]
    · rw [show (n : F) * a.z + a.z = ((n + 1 : ℕ) : F) * a.z by push_cast; ring, hz]

theorem blinnR_exactModel (I : Intrinsics F) (viewPosition : float3 F) (lightsCount : ℕ)
    (lightsData : ℕ → LightData F) (normal : float3 F) (worldPos : F) :
    blinnR (exactModel I) viewPosition lightsCount lightsData normal worldPos =
      blinn I viewPosition lightsCount lightsData normal worldPos := rfl

/-- C7 (counterexample): six lights whose ambient colour is `0.3f` in each channel (the
float nearest to 0.3, 5033165 / 2^24), in binary32 arithmetic.  The loop adds the colour
six times, rounding each sum: 0.3f, 2 * 0.3f, 3 * 0.3f, 4 * 0.3f are floats, 5 * 0.3f
rounds to 1.5, and 1.5 + 0.3f rounds to 7549747 / 2^22, whereas six times the colour is
15099495 / 2^23, one unit in the last place more. -/
theorem blinn_ambient_six_lights :
    (blinnR (roundedModel binary32Round ⟨Real.sqrt, fun x y => x ^ y⟩) ⟨0, 0, -1⟩ 6
        (fun _ => { sampleOmni ℝ with
          ambientColor := ⟨5033165 / 16777216, 5033165 / 16777216, 5033165 / 16777216⟩ })
        ⟨0, 0, 1⟩ 0).ambColor
      = ⟨7549747 / 4194304, 7549747 / 4194304, 7549747 / 4194304⟩ ∧
    ((6 : ℕ) : ℝ) * (5033165 / 16777216) = 15099495 / 8388608 ∧
    (7549747 / 4194304 : ℝ) ≠ 15099495 / 8388608 ∧
    binary32Round (0.3 : ℝ) = 5033165 / 16777216 := by
  refine ⟨?_, by norm_num, by norm_num, binary32Round_three_tenths⟩
  rw [blinnR_ambColor]
  simp only [List.range_succ, List.range_zero, List.nil_append, List.cons_append,
    List.foldl_cons, List.foldl_nil, addR, roundedModel, binary32_six_times]

/-- C7 (amended): in float arithmetic with any rounding, the ambient sum that `blinn`
returns is the running sum of `ambientColor` over the `lightsCount` lights in index order,
each addition rounded.  It is the same for any other intrinsics, view position, normal,
world position and light array whose first `lightsCount` records carry the same ambient
colours (whatever their type, position, direction and falloff are).  `lightsCount` lights
with the same ambient colour `a` give exactly `lightsCount * a` when the multiples
`a, 2a, ..., lightsCount * a` are floats, that is when no addition rounds.  Without
rounding the function is the unrounded `blinn`. -/
theorem blinnR_ambient_sum (M : FloatModel F) (viewPosition : float3 F) (lightsCount : ℕ)
    (lightsData : ℕ → LightData F) (normal : float3 F) (worldPos : F) :
    (blinnR M viewPosition lightsCount lightsData normal worldPos).ambColor =
      (List.range lightsCount).foldl (fun acc i => addR M acc (lightsData i).ambientColor)
        ⟨0, 0, 0⟩ ∧
    (∀ (M' : FloatModel F) (viewPosition' : float3 F) (lightsData' : ℕ → LightData F)
        (normal' : float3 F) (worldPos' : F), M'.rnd = M.rnd →
      (∀ i, i < lightsCount → (lightsData' i).ambientColor = (lightsData i).ambientColor) →
      (blinnR M' viewPosition' lightsCount lightsData' normal' worldPos').ambColor =
        (blinnR M viewPosition lightsCount lightsData normal worldPos).ambColor) ∧
    (∀ a : float3 F, (∀ i, i < lightsCount → (lightsData i).ambientColor = a) →
      (∀ j : ℕ, 1 ≤ j → j ≤ lightsCount →
        M.rnd (j * a.x) = j * a.x ∧ M.rnd (j * a.y) = j * a.y ∧ M.rnd (j * a.z) = j * a.z) →
      (blinnR M viewPosition lightsCount lightsData normal worldPos).ambColor =
        ⟨lightsCount * a.x, lightsCount * a.y, lightsCount * a.z⟩) ∧
    (∀ I : Intrinsics F,
      blinnR (exactModel I) viewPosition lightsCount lightsData normal worldPos =
        blinn I viewPosition lightsCount lightsData normal worldPos) := by
  refine ⟨blinnR_ambColor M _ _ _ _ _, ?_, ?_, fun I => rfl⟩
  · intro M' viewPosition' lightsData' normal' worldPos' hr h
    rw [blinnR_ambColor, blinnR_ambColor]
    exact ambient_fold_congr M M' hr lightsCount lightsData lightsData' h
  · intro a h hrep
    rw [blinnR_ambColor]
    exact ambient_fold_equal_colors M lightsCount lightsData a h hrep

/-- C7 (amended), in binary32 arithmetic for four lights with the ambient colour `0.3f`:
the multiples up to four times `0.3f` are floats and the ambient sum is four times the
colour. -/
theorem blinnR_ambient_sum_witness :
    (∀ j : ℕ, 1 ≤ j → j ≤ 4 →
      binary32Round ((j : ℝ) * (5033165 / 16777216)) = j * (5033165 / 16777216)) ∧
    (blinnR (roundedModel binary32Round ⟨Real.sqrt, fun x y => x ^ y⟩) ⟨0, 0, -1⟩ 4
        (fun _ => { sampleOmni ℝ with
          ambientColor := ⟨5033165 / 16777216, 5033165 / 16777216, 5033165 / 16777216⟩ })
        ⟨0, 0, 1⟩ 0).ambColor
      = ⟨(4 : ℕ) * (5033165 / 16777216), (4 : ℕ) * (5033165 / 16777216),
          (4 : ℕ) * (5033165 / 16777216)⟩ := by
  have hrep : ∀ j : ℕ, 1 ≤ j → j ≤ 4 →
      binary32Round ((j : ℝ) * (5033165 / 16777216)) = j * (5033165 / 16777216) := by
    intro j h1 h4
    interval_cases j
    · rw [show ((1 : ℕ) : ℝ) * (5033165 / 16777216) = 5033165 / 16777216 by norm_num]
      exact binary32Round_a1
    · rw [show ((2 : ℕ) : ℝ) * (5033165 / 16777216) = 5033165 / 8388608 by norm_num]
      exact binary32Round_a2
    · rw [show ((3 : ℕ) : ℝ) * (5033165 / 16777216) = 15099495 / 16777216 by norm_num]
      exact binary32Round_a3
    · rw [show ((4 : ℕ) : ℝ) * (5033165 / 16777216) = 5033165 / 4194304 by norm_num]
      exact binary32Round_a4
  exact ⟨hrep,
    (blinnR_ambient_sum (roundedModel binary32Round ⟨Real.sqrt, fun x y => x ^ y⟩) ⟨0, 0, -1⟩ 4
      (fun _ => { sampleOmni ℝ with
        ambientColor := ⟨5033165 / 16777216, 5033165 / 16777216, 5033165 / 16777216⟩ })
      ⟨0, 0, 1⟩ 0).2.2.1 ⟨5033165 / 16777216, 5033165 / 16777216, 5033165 / 16777216⟩
      (fun _ _ => rfl) (fun j h1 h4 => ⟨hrep j h1 h4, hrep j h1 h4, hrep j h1 h4⟩)⟩

end AmbientR

section AttenuationR
variable {F : Type} [LinearOrderedField F]

theorem lightPowerR_exact (len lightFalloff : F) :
    lightPowerR (fun x => x) len lightFalloff = lightPower len lightFalloff := rfl

/-- C6 (counterexample): with falloff = 1e-7 and dist = falloff the attenuation is
(1 - 1e-7 / (1e-7 + 1e-7))^2 = 1/4, not 0; and so it is in binary32 arithmetic with falloff
and dist the float `1e-7`, which is 14073749 / 2^47. -/
theorem lightPower_at_falloff_not_zero :
    lightPower (1e-7 : ℚ) 1e-7 = 1 / 4 ∧ lightPower (1e-7 : ℚ) 1e-7 ≠ 0 ∧
    lightPowerR binary32Round (14073749 / 140737488355328 : ℚ) (14073749 / 140737488355328)
      = 1 / 4 := by
  refine ⟨?_, ?_, (lightPowerR_binary32_at_falloff (F := ℚ)).1⟩ <;>
    norm_num [lightPower, saturate]

/-- C6 (amended): in float arithmetic with any monotone rounding that keeps 0 and 1, and
for every float falloff > 0, the attenuation
`atten(dist) = (1 - saturate(dist / (falloff + 1e-7)))^2` of `blinn` satisfies
`atten(0) = 1`; `atten(dist) = 0` for every `dist` at or above the divisor
`falloff + 1e-7` as it is computed; it is monotonically non-increasing in `dist`
(everywhere, so in particular over [0, falloff]); and it is never negative (and never
above 1).  Without rounding it is the unrounded `lightPower`. -/
theorem lightPowerR_properties (rnd : F → F) (hmono : Monotone rnd) (h0 : rnd 0 = 0)
    (h1 : rnd 1 = 1) (lightFalloff : F) (hf : 0 < lightFalloff)
    (hrep : rnd lightFalloff = lightFalloff) :
    lightPowerR rnd 0 lightFalloff = 1 ∧
    (∀ dist : F, rnd (lightFalloff + rnd 1e-7) ≤ dist →
      lightPowerR rnd dist lightFalloff = 0) ∧
    (∀ d₁ d₂ : F, d₁ ≤ d₂ →
      lightPowerR rnd d₂ lightFalloff ≤ lightPowerR rnd d₁ lightFalloff) ∧
    (∀ dist : F, 0 ≤ lightPowerR rnd dist lightFalloff ∧
      lightPowerR rnd dist lightFalloff ≤ 1) ∧
    (∀ len : F, lightPowerR (fun x => x) len lightFalloff = lightPower len lightFalloff) := by
  have hone : (1.0 : F) = 1 := by norm_num
  have he : (0 : F) ≤ rnd 1e-7 := by
    have := hmono (le_of_lt (eps_pos (F := F)))
    rwa [h0] at this
  have hpos : 0 < rnd (lightFalloff + rnd 1e-7) := by
    have := hmono (le_add_of_nonneg_right he : lightFalloff ≤ lightFalloff + rnd 1e-7)
    rw [hrep] at this
    exact lt_of_lt_of_le hf this
  have hfac : ∀ dist : F,
      0 ≤ rnd (1 - saturate (rnd (dist / rnd (lightFalloff + rnd 1e-7)))) ∧
      rnd (1 - saturate (rnd (dist / rnd (lightFalloff + rnd 1e-7)))) ≤ 1 := by
    intro dist
    have s0 := saturate_nonneg (rnd (dist / rnd (lightFalloff + rnd 1e-7)))
    have s1 := saturate_le_one (rnd (dist / rnd (lightFalloff + rnd 1e-7)))
    constructor
    · have := hmono (sub_nonneg.mpr s1)
      rwa [h0] at this
    · have := hmono (sub_le_self (1 : F) s0)
      rwa [h1] at this
  refine ⟨?_, ?_, ?_, ?_, fun len => rfl⟩
  · simp only [lightPowerR, hone, zero_div, h0, saturate_of_mem le_rfl zero_le_one, sub_zero,
      h1, mul_one]
  · intro dist hd
    have hq : 1 ≤ rnd (dist / rnd (lightFalloff + rnd 1e-7)) := by
      have := hmono ((one_le_div hpos).mpr hd)
      rwa [h1] at this
    simp only [lightPowerR, hone, saturate_of_one_le hq, sub_self, h0, mul_zero]
  · intro d₁ d₂ h
    have hs : saturate (rnd (d₁ / rnd (lightFalloff + rnd 1e-7)))
        ≤ saturate (rnd (d₂ / rnd (lightFalloff + rnd 1e-7))) :=
      saturate_mono (hmono (div_le_div_of_nonneg_right h hpos.le))
    have hr : rnd (1 - saturate (rnd (d₂ / rnd (lightFalloff + rnd 1e-7))))
        ≤ rnd (1 - saturate (rnd (d₁ / rnd (lightFalloff + rnd 1e-7)))) :=
      hmono (sub_le_sub_left hs 1)
    simp only [lightPowerR, hone]
    exact hmono (mul_le_mul hr hr (hfac d₂).1 (hfac d₁).1)
  · intro dist
    obtain ⟨f0, f1⟩ := hfac dist
    simp only [lightPowerR, hone]
    constructor
    · have := hmono (mul_nonneg f0 f0)
      rwa [h0] at this
    · have := hmono (mul_le_one₀ f1 f0 f1)
      rwa [h1] at this

/-- C6 (amended), in binary32 arithmetic at falloff = 10: the computed divisor
`10 + 1e-7` is 10, so the attenuation at `dist = 10` is 0. -/
theorem lightPowerR_properties_witness :
    (Monotone (binary32Round : ℚ → ℚ) ∧ binary32Round (0 : ℚ) = 0 ∧
      binary32Round (1 : ℚ) = 1 ∧ (0 : ℚ) < 10 ∧ binary32Round (10 : ℚ) = 10 ∧
      binary32Round ((10 : ℚ) + binary32Round 1e-7) ≤ 10) ∧
    lightPowerR binary32Round (0 : ℚ) 10 = 1 ∧
    lightPowerR binary32Round (10 : ℚ) 10 = 0 :=
  ⟨⟨binary32Round_mono, binary32Round_zero, binary32Round_one, by norm_num,
      binary32Round_ten, le_of_eq binary32Round_ten_add_eps⟩,
    (lightPowerR_properties binary32Round binary32Round_mono binary32Round_zero
      binary32Round_one (10 : ℚ) (by norm_num) binary32Round_ten).1,
    (lightPowerR_properties binary32Round binary32Round_mono binary32Round_zero
      binary32Round_one (10 : ℚ) (by norm_num) binary32Round_ten).2.1 10
      (le_of_eq binary32Round_ten_add_eps)⟩

end AttenuationR
end pscommon
